import Mathlib

/-!
# Verification of the Client_Onboarding backend core

Shallow embedding of the risk-scoring, review-scheduling, customer-store,
registration and dashboard-statistics logic of the repository, together with
theorems settling the specification's claims about them.

Conventions of the embedding:
* JavaScript numbers that can be `NaN` are modelled as `Option ℚ`
  (`none` = `NaN`); every `<` comparison against `NaN` is `false`,
  exactly as in JS (`jsLt`).
* Timestamps/dates are modelled by their UTC calendar date `SimpleDate`
  (year, zero-based month as in JS `Date`, day of month);
  `Date.prototype.setMonth(m + 6)` is `addMonths 6`.
* The persistent store is a record of lists of rows; each route handler is a
  function from the request and the current store to a response paired with
  the new store.
* `bcrypt` is an external collaborator; it is modelled by a deterministic
  tagging function `bcryptHash` with `bcryptCompare pw h ↔ h = bcryptHash pw`.
-/

namespace Onboarding

/-! ## JavaScript numeric-input model (utils/calculateRisk.js) -/

/-- A value read from a customer attribute that the code feeds to
`parseFloat(x || 0)`: it is either missing/falsy (`undefined`, `null`, `''`,
`0`), an actual number, or a non-numeric string (which `parseFloat` turns
into `NaN`). -/
inductive JSNum where
  | missing : JSNum
  | num : ℚ → JSNum
  | nonNumeric : JSNum
  deriving Repr, DecidableEq

/-- `parseFloat(x || 0)`: a missing/falsy value becomes `0` before parsing;
a number parses to itself; a non-numeric string parses to `NaN` (`none`). -/
def parseFloatOrZero : JSNum → Option ℚ
  | .missing => some 0
  | .num q => some q
  | .nonNumeric => none

/-- JavaScript `x < b` where `x` may be `NaN`: any comparison involving
`NaN` is `false`. -/
def jsLt (x : Option ℚ) (b : ℚ) : Bool :=
  match x with
  | some q => decide (q < b)
  | none => false

/-! ## Risk scorer (utils/calculateRisk.js, `calculateRiskScore`) -/

/-- Milliseconds in `365.25 * 24 * 60 * 60 * 1000`. -/
def msPerYear : ℤ := 31557600000

/-- The customer attributes the risk scorer reads. `date_of_birth` is the
parsed birth date as a millisecond epoch timestamp (`none` when
`new Date(...)` is an Invalid Date, making the derived age `NaN`). -/
structure RiskInput where
  date_of_birth : Option ℤ
  annual_income : JSNum
  employment_status : String
  account_type : String
  initial_deposit : JSNum
  deriving Repr, DecidableEq

inductive RiskLevel where
  | LOW | MEDIUM | HIGH
  deriving Repr, DecidableEq

/-- The object returned by `calculateRiskScore`. -/
structure RiskResult where
  score : ℕ
  risk_level : RiskLevel
  age_factor : ℕ
  income_factor : ℕ
  employment_factor : ℕ
  account_type_factor : ℕ
  deposit_factor : ℕ
  deriving Repr, DecidableEq

/-- `Math.floor((Date.now() - birthDate.getTime()) / (365.25*24*60*60*1000))`;
`none` (invalid birth date) propagates as `NaN`. -/
def jsAge (nowMs : ℤ) : Option ℤ → Option ℤ
  | some birth => some ((nowMs - birth).fdiv msPerYear)
  | none => none

/-- The age branch of `calculateRiskScore` (every comparison with a `NaN`
age is false, so an invalid date keeps the initial factor `0`). -/
def ageFactorOf : Option ℤ → ℕ
  | none => 0
  | some age =>
      if 18 ≤ age ∧ age ≤ 25 then 10
      else if 26 ≤ age ∧ age ≤ 40 then 5
      else if 41 ≤ age ∧ age ≤ 60 then 3
      else if 60 < age then 8
      else 0

/-- The income branch: `parseFloat(customer.annual_income || 0)` then
`< 30000 → 10`, `< 60000 → 5`, `< 100000 → 3`, else `1`
(a `NaN` fails every `<` and lands in the final `else`). -/
def incomeFactorOf (v : JSNum) : ℕ :=
  let income := parseFloatOrZero v
  if jsLt income 30000 then 10
  else if jsLt income 60000 then 5
  else if jsLt income 100000 then 3
  else 1

/-- The employment `switch`. -/
def employmentFactorOf (s : String) : ℕ :=
  if s = "UNEMPLOYED" then 10
  else if s = "PART_TIME" then 7
  else if s = "SELF_EMPLOYED" then 5
  else if s = "FULL_TIME" then 2
  else 5

/-- The account-type `switch`. -/
def accountTypeFactorOf (s : String) : ℕ :=
  if s = "INVESTMENT" then 1
  else if s = "BUSINESS" then 3
  else if s = "SAVINGS" then 5
  else if s = "CHECKING" then 7
  else 5

/-- The deposit branch: `parseFloat(customer.initial_deposit || 0)` then
`< 1000 → 5`, `< 10000 → 2`, `< 50000 → 1`, else `0`
(a `NaN` fails every `<` and lands in the final `else`). -/
def depositFactorOf (v : JSNum) : ℕ :=
  let deposit := parseFloatOrZero v
  if jsLt deposit 1000 then 5
  else if jsLt deposit 10000 then 2
  else if jsLt deposit 50000 then 1
  else 0

/-- `calculateRiskScore(customer)` at current time `nowMs`. -/
def calculateRiskScore (nowMs : ℤ) (c : RiskInput) : RiskResult :=
  let ageFactor := ageFactorOf (jsAge nowMs c.date_of_birth)
  let incomeFactor := incomeFactorOf c.annual_income
  let employmentFactor := employmentFactorOf c.employment_status
  let accountTypeFactor := accountTypeFactorOf c.account_type
  let depositFactor := depositFactorOf c.initial_deposit
  let score := ageFactor + incomeFactor + employmentFactor
    + accountTypeFactor + depositFactor
  { score := score
    risk_level :=
      if 41 ≤ score then .HIGH else if 21 ≤ score then .MEDIUM else .LOW
    age_factor := ageFactor
    income_factor := incomeFactor
    employment_factor := employmentFactor
    account_type_factor := accountTypeFactor
    deposit_factor := depositFactor }

/-! ### Spec-side restatement of the factor table (for the refinement claims) -/

/-- The spec's age table: 18–25→10, 26–40→5, 41–60→3, >60→8, <18→0. -/
def specAgeFactor (age : ℤ) : ℕ :=
  if 18 ≤ age ∧ age ≤ 25 then 10
  else if 26 ≤ age ∧ age ≤ 40 then 5
  else if 41 ≤ age ∧ age ≤ 60 then 3
  else if 60 < age then 8
  else 0

/-- The spec's income table on a (numeric) income. -/
def specIncomeFactor (income : ℚ) : ℕ :=
  if income < 30000 then 10
  else if income < 60000 then 5
  else if income < 100000 then 3
  else 1

/-- The spec's deposit table on a (numeric) deposit. -/
def specDepositFactor (deposit : ℚ) : ℕ :=
  if deposit < 1000 then 5
  else if deposit < 10000 then 2
  else if deposit < 50000 then 1
  else 0

/-- The spec's level thresholds: score≥41→HIGH, 21≤score<41→MEDIUM, else LOW. -/
def specRiskLevel (score : ℕ) : RiskLevel :=
  if 41 ≤ score then .HIGH else if 21 ≤ score then .MEDIUM else .LOW

/-- The spec's employment table: UNEMPLOYED→10, PART_TIME→7, SELF_EMPLOYED→5,
FULL_TIME→2, other→5. -/
def specEmploymentFactor (s : String) : ℕ :=
  if s = "UNEMPLOYED" then 10
  else if s = "PART_TIME" then 7
  else if s = "SELF_EMPLOYED" then 5
  else if s = "FULL_TIME" then 2
  else 5

/-- The spec's account-type table: INVESTMENT→1, BUSINESS→3, SAVINGS→5,
CHECKING→7, other→5. -/
def specAccountTypeFactor (s : String) : ℕ :=
  if s = "INVESTMENT" then 1
  else if s = "BUSINESS" then 3
  else if s = "SAVINGS" then 5
  else if s = "CHECKING" then 7
  else 5

/-- The spec's worked example: born 20 years ago (we place the birth at the
epoch and "now" exactly 20 code-years later), income 20000, UNEMPLOYED,
CHECKING, deposit 500. -/
def exampleHighRisk : RiskInput :=
  { date_of_birth := some 0
    annual_income := .num 20000
    employment_status := "UNEMPLOYED"
    account_type := "CHECKING"
    initial_deposit := .num 500 }

/-- A customer whose income and deposit fields hold non-numeric strings. -/
def exampleNonNumeric : RiskInput :=
  { date_of_birth := some 0
    annual_income := .nonNumeric
    employment_status := "FULL_TIME"
    account_type := "SAVINGS"
    initial_deposit := .nonNumeric }

/-- A customer whose income and deposit fields are missing. -/
def exampleMissingFields : RiskInput :=
  { date_of_birth := some 0
    annual_income := .missing
    employment_status := "FULL_TIME"
    account_type := "SAVINGS"
    initial_deposit := .missing }

end Onboarding

namespace Onboarding

/-! ## Claims about the risk scorer -/

/-- **C1.** For every customer input with a valid birth date and numeric
income and deposit, `calculateRiskScore` computes the five factors exactly
per the spec's factor table on the derived age, its total score is the sum
of the five factors, and the level is HIGH iff score ≥ 41, MEDIUM iff
21 ≤ score < 41, else LOW; in particular the spec's worked example
(age 20, income 20000, UNEMPLOYED, CHECKING, deposit 500) yields factors
{10,10,10,7,5}, score 42, level HIGH. -/
theorem risk_scorer_matches_spec_table :
    (∀ (nowMs birth : ℤ) (emp acct : String) (income deposit : ℚ),
      calculateRiskScore nowMs
        { date_of_birth := some birth
          annual_income := .num income
          employment_status := emp
          account_type := acct
          initial_deposit := .num deposit } =
      { score := specAgeFactor ((nowMs - birth).fdiv msPerYear)
          + specIncomeFactor income + specEmploymentFactor emp
          + specAccountTypeFactor acct + specDepositFactor deposit
        risk_level := specRiskLevel
          (specAgeFactor ((nowMs - birth).fdiv msPerYear)
            + specIncomeFactor income + specEmploymentFactor emp
            + specAccountTypeFactor acct + specDepositFactor deposit)
        age_factor := specAgeFactor ((nowMs - birth).fdiv msPerYear)
        income_factor := specIncomeFactor income
        employment_factor := specEmploymentFactor emp
        account_type_factor := specAccountTypeFactor acct
        deposit_factor := specDepositFactor deposit }) ∧
    calculateRiskScore (20 * msPerYear) exampleHighRisk =
      { score := 42, risk_level := .HIGH, age_factor := 10
        income_factor := 10, employment_factor := 10
        account_type_factor := 7, deposit_factor := 5 } := by
  constructor
  · intro nowMs birth emp acct income deposit
    simp [calculateRiskScore, jsAge, ageFactorOf, specAgeFactor,
      incomeFactorOf, specIncomeFactor, depositFactorOf, specDepositFactor,
      employmentFactorOf, specEmploymentFactor, accountTypeFactorOf,
      specAccountTypeFactor, specRiskLevel, jsLt, parseFloatOrZero]
  · decide

/-- **C2 counterexample.** The claim says a *non-numeric* income or deposit
is bucketed as the value 0 (income factor 10, deposit factor 5); on the code,
`parseFloat` yields `NaN`, every `<` test fails, and the final `else`
branches give income factor 1 and deposit factor 0 instead. -/
theorem nonNumeric_income_not_bucketed_as_zero :
    (calculateRiskScore 0 exampleNonNumeric).income_factor = 1 ∧
    (calculateRiskScore 0 exampleNonNumeric).deposit_factor = 0 ∧
    ¬ ((calculateRiskScore 0 exampleNonNumeric).income_factor = 10 ∧
       (calculateRiskScore 0 exampleNonNumeric).deposit_factor = 5) := by
  decide

/-- **C2 (amended).** A *missing/falsy* income or deposit is treated as the
value 0 before bucketing (income factor 10, deposit factor 5) without error;
a *non-numeric* value parses to `NaN`, fails every bucket comparison, and
yields income factor 1 and deposit factor 0, likewise without error. -/
theorem missing_bucketed_as_zero_nonNumeric_falls_to_else
    (nowMs : ℤ) (c : RiskInput) :
    (c.annual_income = .missing →
      (calculateRiskScore nowMs c).income_factor = 10) ∧
    (c.annual_income = .nonNumeric →
      (calculateRiskScore nowMs c).income_factor = 1) ∧
    (c.initial_deposit = .missing →
      (calculateRiskScore nowMs c).deposit_factor = 5) ∧
    (c.initial_deposit = .nonNumeric →
      (calculateRiskScore nowMs c).deposit_factor = 0) := by
  refine ⟨fun h => ?_, fun h => ?_, fun h => ?_, fun h => ?_⟩ <;>
    simp [calculateRiskScore, incomeFactorOf, depositFactorOf, h,
      parseFloatOrZero, jsLt]

/-- Witness for the amended C2 at concrete inputs. -/
theorem missing_bucketed_as_zero_witness :
    (calculateRiskScore 0 exampleMissingFields).income_factor = 10 ∧
    (calculateRiskScore 0 exampleMissingFields).deposit_factor = 5 := by
  exact ⟨(missing_bucketed_as_zero_nonNumeric_falls_to_else 0
            exampleMissingFields).1 rfl,
         (missing_bucketed_as_zero_nonNumeric_falls_to_else 0
            exampleMissingFields).2.2.1 rfl⟩

theorem ageFactorOf_le (a : Option ℤ) : ageFactorOf a ≤ 10 := by
  unfold ageFactorOf
  repeat' split
  all_goals omega

theorem incomeFactorOf_le (v : JSNum) : incomeFactorOf v ≤ 10 := by
  unfold incomeFactorOf
  dsimp only
  repeat' split
  all_goals omega

theorem employmentFactorOf_le (s : String) : employmentFactorOf s ≤ 10 := by
  unfold employmentFactorOf
  repeat' split
  all_goals omega

theorem accountTypeFactorOf_le (s : String) : accountTypeFactorOf s ≤ 7 := by
  unfold accountTypeFactorOf
  repeat' split
  all_goals omega

theorem depositFactorOf_le (v : JSNum) : depositFactorOf v ≤ 5 := by
  unfold depositFactorOf
  dsimp only
  repeat' split
  all_goals omega

/-- **C10.** For every customer input, the returned `score` equals the sum
of the five returned factor fields, `0 ≤ score ≤ 42`, and hence the HIGH
level is only reachable at scores 41 and 42. -/
theorem risk_score_is_factor_sum_and_bounded (nowMs : ℤ) (c : RiskInput) :
    (calculateRiskScore nowMs c).score
      = (calculateRiskScore nowMs c).age_factor
        + (calculateRiskScore nowMs c).income_factor
        + (calculateRiskScore nowMs c).employment_factor
        + (calculateRiskScore nowMs c).account_type_factor
        + (calculateRiskScore nowMs c).deposit_factor ∧
    (calculateRiskScore nowMs c).score ≤ 42 ∧
    ((calculateRiskScore nowMs c).risk_level = .HIGH →
      (calculateRiskScore nowMs c).score = 41 ∨
      (calculateRiskScore nowMs c).score = 42) := by
  have hb : (calculateRiskScore nowMs c).score ≤ 42 := by
    have h1 := ageFactorOf_le (jsAge nowMs c.date_of_birth)
    have h2 := incomeFactorOf_le c.annual_income
    have h3 := employmentFactorOf_le c.employment_status
    have h4 := accountTypeFactorOf_le c.account_type
    have h5 := depositFactorOf_le c.initial_deposit
    simp only [calculateRiskScore]
    omega
  refine ⟨rfl, hb, fun hH => ?_⟩
  by_contra hcon
  push_neg at hcon
  have hlt : (calculateRiskScore nowMs c).score < 41 := by omega
  have : (calculateRiskScore nowMs c).risk_level ≠ .HIGH := by
    revert hlt
    simp only [calculateRiskScore]
    intro hlt
    rw [if_neg (by omega)]
    split <;> simp
  exact this hH

/-- Witness for C10 at the spec's worked example, whose level is HIGH. -/
theorem risk_score_bound_witness :
    (calculateRiskScore (20 * msPerYear) exampleHighRisk).score = 41 ∨
    (calculateRiskScore (20 * msPerYear) exampleHighRisk).score = 42 := by
  exact (risk_score_is_factor_sum_and_bounded (20 * msPerYear)
    exampleHighRisk).2.2 (by decide)

/-! ## Calendar dates and JS `Date` month arithmetic

Timestamps are modelled by their UTC calendar date: year, month (zero-based,
as in JS `Date#getMonth`), day of month. `setMonth(getMonth() + 6)` keeps the
time of day, so the date part of the result depends only on the date part of
the input; `toISOString().slice(0, 10)` then extracts exactly that date. -/

structure SimpleDate where
  year : ℤ
  month : ℕ
  day : ℕ
  deriving Repr, DecidableEq

def isLeapYear (y : ℤ) : Bool :=
  y % 4 = 0 && (y % 100 ≠ 0 || y % 400 = 0)

/-- Days in zero-based month `m` of year `y`. -/
def daysInMonth (y : ℤ) (m : ℕ) : ℕ :=
  if m = 1 then (if isLeapYear y then 29 else 28)
  else if m = 3 ∨ m = 5 ∨ m = 8 ∨ m = 10 then 30
  else 31

/-- JS `d.setMonth(d.getMonth() + n)`: the month index is taken mod 12 with
year carry; if the day of month exceeds the target month's length, the date
rolls over into the following month (the overflow is at most 3 days, so at
most one month is crossed). -/
def addMonths (n : ℕ) (dt : SimpleDate) : SimpleDate :=
  let t := dt.month + n
  let y := dt.year + (t / 12 : ℕ)
  let m := t % 12
  let dim := daysInMonth y m
  if dt.day ≤ dim then ⟨y, m, dt.day⟩
  else if m = 11 then ⟨y + 1, 0, dt.day - dim⟩
  else ⟨y, m + 1, dt.day - dim⟩

/-- `new Date(null)` / `new Date(0)`: the Unix epoch, 1970-01-01. -/
def epochDate : SimpleDate := ⟨1970, 0, 1⟩

/-- `new Date(x)` for a nullable stored timestamp: `null` parses to the
epoch. -/
def jsDateOrEpoch (o : Option SimpleDate) : SimpleDate := o.getD epochDate

/-! ## Store rows (tables `users`, `customers`, `reviews`, `risk_scores`) -/

inductive CustStatus where
  | DRAFT | PENDING | APPROVED | REJECTED
  deriving Repr, DecidableEq

inductive ReviewStatus where
  | DRAFT | COMPLETED
  deriving Repr, DecidableEq

structure UserRow where
  id : ℕ
  email : String
  password_hash : String
  role : String
  deriving Repr, DecidableEq

/-- A `customers` row (the columns the verified routes touch). `attrs` holds
the financial/personal attributes the risk scorer reads; `fields` models the
remaining generic columns that `PUT /customers/:id` may overwrite. -/
structure CustomerRow where
  id : ℕ
  user_id : ℕ
  status : CustStatus
  attrs : RiskInput
  decision_date : Option SimpleDate := none
  approved_by : Option ℕ := none
  fields : List (String × String) := []
  deriving Repr, DecidableEq

structure Review where
  id : ℕ
  customer_id : ℕ
  scheduled_date : SimpleDate
  status : ReviewStatus
  completed_date : Option SimpleDate := none
  notes : Option String := none
  next_review_date : Option SimpleDate := none
  completed_by : Option ℕ := none
  created_at : Option SimpleDate := none
  deriving Repr, DecidableEq

/-- A `risk_scores` row: `POST /customers/:id/calculate-risk` upserts
`{ customer_id, ...risk }` with conflict target `customer_id`. -/
structure RiskRow where
  customer_id : ℕ
  result : RiskResult
  deriving Repr, DecidableEq

/-- The persistent store. The `next*` counters model the database's
autogenerated primary keys: a fresh insert receives the counter value. -/
structure Store where
  users : List UserRow := []
  customers : List CustomerRow := []
  reviews : List Review := []
  risk_scores : List RiskRow := []
  nextUserId : ℕ := 1
  nextCustomerId : ℕ := 1
  nextReviewId : ℕ := 1
  deriving Repr, DecidableEq

/-- All `reviews` rows of one customer
(`.from('reviews').select().eq('customer_id', cid)`). -/
def reviewsFor (cid : ℕ) (rs : List Review) : List Review :=
  rs.filter (fun r => r.customer_id = cid)

/-! ## Review scheduler routes (routes/reviews.js) -/

/-- One iteration of the backfill loop inside `POST /customers/:id/approve`:
skip the just-approved customer, and for a customer with zero reviews insert
a DRAFT review scheduled 6 months from
`customer.decision_date ? new Date(customer.decision_date) : new Date()`,
i.e. from `now` when `decision_date` is null. The accumulator carries the
evolving reviews list, the next review id, and `backfillCount`. -/
def approveBackfillStep (skipId : ℕ) (now : SimpleDate)
    (acc : List Review × ℕ × ℕ) (c : CustomerRow) : List Review × ℕ × ℕ :=
  let (rs, nid, cnt) := acc
  if c.id = skipId then (rs, nid, cnt)
  else if (reviewsFor c.id rs).isEmpty then
    (rs ++ [{ id := nid, customer_id := c.id
              scheduled_date := addMonths 6 (c.decision_date.getD now)
              status := .DRAFT }],
     nid + 1, cnt + 1)
  else (rs, nid, cnt)

/-- Step 4 of `POST /customers/:id/approve`: iterate over all APPROVED
customers with `approveBackfillStep`. -/
def approveBackfillLoop (skipId : ℕ) (now : SimpleDate)
    (approved : List CustomerRow) (rs : List Review) (nid : ℕ) :
    List Review × ℕ × ℕ :=
  approved.foldl (approveBackfillStep skipId now) (rs, nid, 0)

/-- The row update performed by step 1 of `POST /customers/:id/approve`
(`update({status:'APPROVED', decision_date: now, approved_by: req.user.id})
.eq('id', custId)`). -/
def approveUpdateC (empId custId : ℕ) (now : SimpleDate) (c : CustomerRow) :
    CustomerRow :=
  if c.id = custId then
    { c with status := .APPROVED, decision_date := some now
             approved_by := some empId }
  else c

/-- `POST /customers/:id/approve` (routes/reviews.js): (1) update the
customer to APPROVED with `decision_date = now` and `approved_by` = the
requesting employee (`.select().single()` fails — `none`, a 500 — when no
row matches); (2) check whether any review exists for this customer;
(3) if none, insert one DRAFT review scheduled 6 months after the freshly
written `decision_date`; (4) backfill all other APPROVED customers with zero
reviews. Returns the new store and the backfill count. -/
def approveRoute (empId custId : ℕ) (now : SimpleDate) (st : Store) :
    Option (Store × ℕ) :=
  let customers' := st.customers.map (approveUpdateC empId custId now)
  match customers'.find? (fun c => c.id = custId) with
  | none => none
  | some customerData =>
      let existing := reviewsFor custId st.reviews
      let p₁ : List Review × ℕ :=
        if existing.isEmpty then
          (st.reviews ++
            [{ id := st.nextReviewId, customer_id := custId
               scheduled_date :=
                 addMonths 6 (jsDateOrEpoch customerData.decision_date)
               status := .DRAFT }],
           st.nextReviewId + 1)
        else (st.reviews, st.nextReviewId)
      let res :=
        approveBackfillLoop custId now
          (customers'.filter (fun c => c.status = .APPROVED)) p₁.1 p₁.2
      some ({ st with customers := customers', reviews := res.1
                      nextReviewId := res.2.1 },
            res.2.2)

/-- `PUT /customers/:id/approve` (routes/customers.js): updates the customer
to APPROVED and stamps `decision_date = now` — nothing else: no
`approved_by`, and no review is created. `none` models the 500 path when the
`.single()` select matches no row. -/
def approveSimpleRoute (custId : ℕ) (now : SimpleDate) (st : Store) :
    Option Store :=
  let customers' := st.customers.map fun c =>
    if c.id = custId then
      { c with status := .APPROVED, decision_date := some now }
    else c
  match customers'.find? (fun c => c.id = custId) with
  | none => none
  | some _ => some { st with customers := customers' }

/-- `POST /backfill` (routes/reviews.js): for every APPROVED customer with
zero reviews, insert a DRAFT review scheduled 6 months from
`new Date(customer.decision_date)` — note that a null `decision_date` parses
to the Unix epoch here, unlike the approve route's backfill step. Returns
the new store and the created reviews (`createdReviews`). -/
def backfillStep (acc : List Review × ℕ × List Review) (c : CustomerRow) :
    List Review × ℕ × List Review :=
  let (rs, nid, created) := acc
  if (reviewsFor c.id rs).isEmpty then
    let r : Review :=
      { id := nid, customer_id := c.id
        scheduled_date := addMonths 6 (jsDateOrEpoch c.decision_date)
        status := .DRAFT }
    (rs ++ [r], nid + 1, created ++ [r])
  else (rs, nid, created)

def backfillRoute (st : Store) : Store × List Review :=
  let res :=
    (st.customers.filter (fun c => c.status = .APPROVED)).foldl
      backfillStep (st.reviews, st.nextReviewId, [])
  ({ st with reviews := res.1, nextReviewId := res.2.1 }, res.2.2)

/-- Request body of `PUT /reviews/:id/complete`; `none` models an
absent/falsy field. -/
structure CompleteBody where
  completedDate : Option SimpleDate := none
  notes : Option String := none
  nextReviewDate : Option SimpleDate := none
  deriving Repr, DecidableEq

inductive CompleteResult where
  | badRequest                -- 400 'completedDate required'
  | notFound                  -- 404 'Review not found'
  | ok (review : Review)      -- 200 { review }
  deriving Repr, DecidableEq

/-- `PUT /reviews/:id/complete` (routes/reviews.js): rejects 400 when
`completedDate` is falsy (before touching the store); otherwise updates the
matching review to COMPLETED (stamping `completed_date`, `notes || null`,
`next_review_date`, `completed_by`) — a vacuous update plus 404 when no row
has that id — and, when `nextReviewDate` was supplied, inserts exactly one
successor DRAFT review at that date for the same customer. -/
def completeRoute (empId reviewId : ℕ) (now : SimpleDate)
    (body : CompleteBody) (st : Store) : CompleteResult × Store :=
  match body.completedDate with
  | none => (.badRequest, st)
  | some cd =>
      let reviews' := st.reviews.map fun r =>
        if r.id = reviewId then
          { r with completed_date := some cd
                   notes := body.notes
                   next_review_date := body.nextReviewDate
                   status := .COMPLETED
                   completed_by := some empId }
        else r
      match reviews'.find? (fun r => r.id = reviewId) with
      | none => (.notFound, { st with reviews := reviews' })
      | some updated =>
          match body.nextReviewDate with
          | some nd =>
              (.ok updated,
               { st with
                   reviews := reviews' ++
                     [{ id := st.nextReviewId
                        customer_id := updated.customer_id
                        scheduled_date := nd, status := .DRAFT
                        created_at := some now }]
                   nextReviewId := st.nextReviewId + 1 })
          | none => (.ok updated, { st with reviews := reviews' })

/-! ### Review-scheduler lemmas -/

theorem reviewsFor_append (cid : ℕ) (a b : List Review) :
    reviewsFor cid (a ++ b) = reviewsFor cid a ++ reviewsFor cid b := by
  simp [reviewsFor, List.filter_append]

theorem approveBackfillStep_skip (skipId : ℕ) (now : SimpleDate)
    (rs : List Review) (nid cnt : ℕ) (c : CustomerRow) (h : c.id = skipId) :
    approveBackfillStep skipId now (rs, nid, cnt) c = (rs, nid, cnt) := by
  simp [approveBackfillStep, h]

theorem approveBackfillStep_insert (skipId : ℕ) (now : SimpleDate)
    (rs : List Review) (nid cnt : ℕ) (c : CustomerRow) (h : ¬ c.id = skipId)
    (h2 : (reviewsFor c.id rs).isEmpty) :
    approveBackfillStep skipId now (rs, nid, cnt) c =
      (rs ++ [{ id := nid, customer_id := c.id
                scheduled_date := addMonths 6 (c.decision_date.getD now)
                status := .DRAFT }], nid + 1, cnt + 1) := by
  simp [approveBackfillStep, h, h2]

theorem approveBackfillStep_noinsert (skipId : ℕ) (now : SimpleDate)
    (rs : List Review) (nid cnt : ℕ) (c : CustomerRow) (h : ¬ c.id = skipId)
    (h2 : ¬ (reviewsFor c.id rs).isEmpty) :
    approveBackfillStep skipId now (rs, nid, cnt) c = (rs, nid, cnt) := by
  simp [approveBackfillStep, h, h2]

/-- The approve route's backfill loop never touches the reviews of the
just-approved (skipped) customer. -/
theorem approveFold_reviewsFor_skip (skipId : ℕ) (now : SimpleDate) :
    ∀ (l : List CustomerRow) (rs : List Review) (nid cnt : ℕ),
      reviewsFor skipId
        (l.foldl (approveBackfillStep skipId now) (rs, nid, cnt)).1
        = reviewsFor skipId rs := by
  intro l
  induction l with
  | nil => intro rs nid cnt; rfl
  | cons c tl ih =>
      intro rs nid cnt
      rw [List.foldl_cons]
      by_cases hskip : c.id = skipId
      · rw [approveBackfillStep_skip _ _ _ _ _ _ hskip]; exact ih rs nid cnt
      · by_cases hemp : (reviewsFor c.id rs).isEmpty
        · rw [approveBackfillStep_insert _ _ _ _ _ _ hskip hemp,
            ih _ _ _, reviewsFor_append]
          have hnil : reviewsFor skipId
              [{ id := nid, customer_id := c.id
                 scheduled_date := addMonths 6 (c.decision_date.getD now)
                 status := .DRAFT }] = [] := by
            simp [reviewsFor]
            intro h; exact hskip h
          rw [hnil, List.append_nil]
        · rw [approveBackfillStep_noinsert _ _ _ _ _ _ hskip hemp]
          exact ih rs nid cnt

/-- Any row of the approve update's result whose id is the approved id has
been stamped APPROVED / `decision_date = now` / `approved_by = empId`. -/
theorem approveUpdateC_mem (empId custId : ℕ) (now : SimpleDate)
    (cs : List CustomerRow) (x : CustomerRow)
    (hx : x ∈ cs.map (approveUpdateC empId custId now))
    (hid : x.id = custId) :
    x.status = .APPROVED ∧ x.decision_date = some now ∧
    x.approved_by = some empId := by
  rcases List.mem_map.mp hx with ⟨c, _, hc⟩
  by_cases hcid : c.id = custId
  · rw [← hc]; unfold approveUpdateC; rw [if_pos hcid]; exact ⟨rfl, rfl, rfl⟩
  · exfalso
    have hxc : x = c := by rw [← hc]; unfold approveUpdateC; rw [if_neg hcid]
    rw [hxc] at hid
    exact hcid hid

/-- The row returned by the `.select().single()` of the approve update. -/
theorem approve_found_row (empId custId : ℕ) (now : SimpleDate)
    (cs : List CustomerRow) (x : CustomerRow)
    (h : (cs.map (approveUpdateC empId custId now)).find?
          (fun c => c.id = custId) = some x) :
    x.status = .APPROVED ∧ x.decision_date = some now ∧
    x.approved_by = some empId := by
  have hp := List.find?_some h
  simp only [decide_eq_true_eq] at hp
  exact approveUpdateC_mem empId custId now cs x
    (List.mem_of_find?_eq_some h) hp

/-- When the customer exists, the `.select().single()` of the approve update
returns a row. -/
theorem approve_find_isSome (empId custId : ℕ) (now : SimpleDate)
    (cs : List CustomerRow) (hex : ∃ c ∈ cs, c.id = custId) :
    ∃ x, (cs.map (approveUpdateC empId custId now)).find?
          (fun c => c.id = custId) = some x := by
  rcases hex with ⟨c, hmem, hid⟩
  have hs : ((cs.map (approveUpdateC empId custId now)).find?
      (fun c => c.id = custId)).isSome := by
    rw [List.find?_isSome]
    refine ⟨approveUpdateC empId custId now c, List.mem_map_of_mem _ hmem, ?_⟩
    unfold approveUpdateC
    rw [if_pos hid]
    simpa using hid
  exact Option.isSome_iff_exists.mp hs

/-- Unfolding lemma for a successful `approveRoute` call. -/
theorem approveRoute_elim (empId custId : ℕ) (now : SimpleDate)
    (st : Store) (st' : Store) (cnt : ℕ)
    (h : approveRoute empId custId now st = some (st', cnt)) :
    ∃ customerData,
      (st.customers.map (approveUpdateC empId custId now)).find?
          (fun c => c.id = custId) = some customerData ∧
      st'.customers = st.customers.map (approveUpdateC empId custId now) ∧
      st'.reviews =
        (approveBackfillLoop custId now
          ((st.customers.map (approveUpdateC empId custId now)).filter
            (fun c => c.status = .APPROVED))
          (if (reviewsFor custId st.reviews).isEmpty then
             (st.reviews ++
               [{ id := st.nextReviewId, customer_id := custId
                  scheduled_date :=
                    addMonths 6 (jsDateOrEpoch customerData.decision_date)
                  status := .DRAFT }], st.nextReviewId + 1)
           else (st.reviews, st.nextReviewId)).1
          (if (reviewsFor custId st.reviews).isEmpty then
             (st.reviews ++
               [{ id := st.nextReviewId, customer_id := custId
                  scheduled_date :=
                    addMonths 6 (jsDateOrEpoch customerData.decision_date)
                  status := .DRAFT }], st.nextReviewId + 1)
           else (st.reviews, st.nextReviewId)).2).1 := by
  unfold approveRoute at h
  dsimp only at h
  split at h
  · exact absurd h (by simp)
  · rename_i customerData hfind
    have hp := Option.some_inj.mp h
    injection hp with h1 h2
    refine ⟨customerData, hfind, ?_, ?_⟩
    · rw [← h1]
    · rw [← h1]

/-- The approve route's effect on the approved customer's own reviews:
it creates the first DRAFT review (scheduled 6 months from the freshly
stamped `decision_date = now`) when none exists, and leaves the customer's
reviews exactly as they were otherwise. -/
theorem approveRoute_reviewsFor (empId custId : ℕ) (now : SimpleDate)
    (st st' : Store) (cnt : ℕ)
    (h : approveRoute empId custId now st = some (st', cnt)) :
    (reviewsFor custId st.reviews = [] →
       reviewsFor custId st'.reviews =
         [{ id := st.nextReviewId, customer_id := custId
            scheduled_date := addMonths 6 now, status := .DRAFT }]) ∧
    (reviewsFor custId st.reviews ≠ [] →
       reviewsFor custId st'.reviews = reviewsFor custId st.reviews) := by
  obtain ⟨cd, hfind, hcs, hrev⟩ := approveRoute_elim empId custId now st st' cnt h
  have hdd : cd.decision_date = some now :=
    (approve_found_row empId custId now st.customers cd hfind).2.1
  constructor
  · intro hemp
    have hempb : (reviewsFor custId st.reviews).isEmpty = true := by
      rw [hemp]; rfl
    rw [hrev]
    unfold approveBackfillLoop
    rw [approveFold_reviewsFor_skip]
    rw [if_pos hempb, reviewsFor_append, hemp, hdd]
    simp [reviewsFor, jsDateOrEpoch]
  · intro hne
    have hempb : (reviewsFor custId st.reviews).isEmpty = false := by
      cases hcase : reviewsFor custId st.reviews with
      | nil => exact absurd hcase hne
      | cons a tl => rfl
    rw [hrev]
    unfold approveBackfillLoop
    rw [approveFold_reviewsFor_skip]
    rw [if_neg (by rw [hempb]; exact Bool.false_ne_true)]

/-! ### Claim C3: the approve operation and review creation -/

/-- A concrete run date (2026-01-15; months are zero-based). -/
def d2026 : SimpleDate := ⟨2026, 0, 15⟩

/-- A one-customer store (customer id 1, PENDING, no reviews). -/
def approveStoreEx : Store :=
  { customers := [{ id := 1, user_id := 101, status := .PENDING
                    attrs := exampleHighRisk }]
    nextUserId := 200, nextCustomerId := 2, nextReviewId := 1 }

/-- **C3 counterexample.** The repository has a second approve endpoint,
`PUT /customers/:id/approve` in routes/customers.js: it sets only
`status` and `decision_date`. Approving customer 1 (who has no review)
through it records no approving employee (`approved_by` stays `null`) and
creates no review — so "the approve operation … records the approving
employee, and ensures a review exists" is false of this endpoint. -/
theorem approve_simple_counterexample :
    ∃ st', approveSimpleRoute 1 d2026 approveStoreEx = some st' ∧
      st'.reviews = [] ∧ st'.customers.map (·.approved_by) = [none] := by
  exact ⟨_, rfl, rfl, rfl⟩

/-- **C3 (amended).** The *scheduler* approve endpoint
(`POST /customers/:id/approve`, routes/reviews.js) behaves as claimed: for
every existing customer and every starting review state it stamps the
customer APPROVED with `decision_date = now` and `approved_by` = the
employee, creates exactly one DRAFT review scheduled 6 months after
`decision_date` when the customer has none, creates none when one exists,
and a second approval never creates a second review. (The plain
`PUT /customers/:id/approve` endpoint, by contrast, only sets `status` and
`decision_date` — see the counterexample.) -/
theorem approve_route_ensures_single_review (st : Store) (empId custId : ℕ)
    (now : SimpleDate) (hex : ∃ c ∈ st.customers, c.id = custId) :
    ∃ st' cnt, approveRoute empId custId now st = some (st', cnt) ∧
      (∀ c ∈ st'.customers, c.id = custId →
         c.status = .APPROVED ∧ c.decision_date = some now ∧
         c.approved_by = some empId) ∧
      (reviewsFor custId st.reviews = [] →
         reviewsFor custId st'.reviews =
           [{ id := st.nextReviewId, customer_id := custId
              scheduled_date := addMonths 6 now, status := .DRAFT }]) ∧
      (reviewsFor custId st.reviews ≠ [] →
         reviewsFor custId st'.reviews = reviewsFor custId st.reviews) ∧
      (∀ emp2 now2 st'' cnt2,
         approveRoute emp2 custId now2 st' = some (st'', cnt2) →
         reviewsFor custId st''.reviews = reviewsFor custId st'.reviews) := by
  obtain ⟨cd, hfind⟩ := approve_find_isSome empId custId now st.customers hex
  have hsome : ∃ p, approveRoute empId custId now st = some p := by
    unfold approveRoute
    dsimp only
    rw [hfind]
    exact ⟨_, rfl⟩
  obtain ⟨⟨st', cnt⟩, h⟩ := hsome
  obtain ⟨cd', hfind', hcs, _⟩ := approveRoute_elim empId custId now st st' cnt h
  obtain ⟨hcreate, hkeep⟩ := approveRoute_reviewsFor empId custId now st st' cnt h
  refine ⟨st', cnt, h, ?_, hcreate, hkeep, ?_⟩
  · intro c hc hid
    rw [hcs] at hc
    exact approveUpdateC_mem empId custId now st.customers c hc hid
  · intro emp2 now2 st'' cnt2 h2
    have hne : reviewsFor custId st'.reviews ≠ [] := by
      by_cases hemp : reviewsFor custId st.reviews = []
      · rw [hcreate hemp]; simp
      · rw [hkeep hemp]; exact hemp
    exact (approveRoute_reviewsFor emp2 custId now2 st' st'' cnt2 h2).2 hne

/-- Witness for the amended C3: approving the review-less customer 1 of
`approveStoreEx` creates exactly its first review, scheduled 6 months out. -/
theorem approve_route_witness :
    ∃ st' cnt, approveRoute 9 1 d2026 approveStoreEx = some (st', cnt) ∧
      reviewsFor 1 st'.reviews =
        [{ id := 1, customer_id := 1
           scheduled_date := addMonths 6 d2026, status := .DRAFT }] := by
  obtain ⟨st', cnt, h, _, hcreate, _, _⟩ :=
    approve_route_ensures_single_review approveStoreEx 9 1 d2026 (by decide)
  exact ⟨st', cnt, h, hcreate rfl⟩

theorem backfillStep_insert (rs : List Review) (nid : ℕ)
    (created : List Review) (c : CustomerRow)
    (h : (reviewsFor c.id rs).isEmpty) :
    backfillStep (rs, nid, created) c =
      (rs ++ [{ id := nid, customer_id := c.id
                scheduled_date := addMonths 6 (jsDateOrEpoch c.decision_date)
                status := .DRAFT }],
       nid + 1,
       created ++ [{ id := nid, customer_id := c.id
                     scheduled_date :=
                       addMonths 6 (jsDateOrEpoch c.decision_date)
                     status := .DRAFT }]) := by
  simp [backfillStep, h]

theorem backfillStep_skip (rs : List Review) (nid : ℕ)
    (created : List Review) (c : CustomerRow)
    (h : ¬ (reviewsFor c.id rs).isEmpty) :
    backfillStep (rs, nid, created) c = (rs, nid, created) := by
  simp [backfillStep, h]

/-- Specification of the backfill scan: starting from reviews `rs₀ ++ created`
with `created` containing no review of any listed customer, the fold appends
exactly one DRAFT review per listed customer whose reviews in `rs₀` are
empty, scheduled 6 months from `new Date(decision_date)` (epoch when null),
and none for the others. -/
theorem backfillFold_spec :
    ∀ (l : List CustomerRow) (rs₀ created : List Review) (nid : ℕ),
      ((l.map (fun c => c.id)).Nodup) →
      (∀ c ∈ l, reviewsFor c.id created = []) →
      ∃ suffix,
        (l.foldl backfillStep (rs₀ ++ created, nid, created)).2.2
          = created ++ suffix ∧
        (l.foldl backfillStep (rs₀ ++ created, nid, created)).1
          = rs₀ ++ (created ++ suffix) ∧
        (∀ r ∈ suffix, r.status = .DRAFT ∧
          ∃ c ∈ l, r.customer_id = c.id ∧ reviewsFor c.id rs₀ = [] ∧
            r.scheduled_date = addMonths 6 (jsDateOrEpoch c.decision_date)) ∧
        (∀ c ∈ l, (suffix.filter (fun r => r.customer_id = c.id)).length
          = if reviewsFor c.id rs₀ = [] then 1 else 0) ∧
        suffix.length =
          (l.filter (fun c => reviewsFor c.id rs₀ = [])).length := by
  intro l
  induction l with
  | nil =>
      intro rs₀ created nid _ _
      exact ⟨[], by simp, by simp, by simp, by simp, by simp⟩
  | cons c tl ih =>
      intro rs₀ created nid hnd hc
      have hndc := List.nodup_cons.mp hnd
      have hcid_not : c.id ∉ tl.map (fun c => c.id) := hndc.1
      have hc_head : reviewsFor c.id created = [] :=
        hc c (List.mem_cons_self c tl)
      have hc_tl : ∀ c' ∈ tl, reviewsFor c'.id created = [] :=
        fun c' h' => hc c' (List.mem_cons_of_mem c h')
      have hsplit : reviewsFor c.id (rs₀ ++ created) = reviewsFor c.id rs₀ := by
        rw [reviewsFor_append, hc_head, List.append_nil]
      rw [List.foldl_cons]
      by_cases hb : reviewsFor c.id rs₀ = []
      · -- the customer has no review: the loop inserts one
        have hbe : (reviewsFor c.id (rs₀ ++ created)).isEmpty := by
          rw [hsplit, hb]; rfl
        rw [backfillStep_insert _ _ _ _ hbe]
        set r : Review :=
          { id := nid, customer_id := c.id
            scheduled_date := addMonths 6 (jsDateOrEpoch c.decision_date)
            status := .DRAFT } with hr
        have hassoc : (rs₀ ++ created) ++ [r] = rs₀ ++ (created ++ [r]) :=
          List.append_assoc rs₀ created [r]
        rw [hassoc]
        have hrc : r.customer_id = c.id := rfl
        have hc' : ∀ c' ∈ tl, reviewsFor c'.id (created ++ [r]) = [] := by
          intro c' hmem
          have hne : ¬ (r.customer_id = c'.id) := by
            rw [hrc]
            intro hEq
            exact hcid_not (by rw [hEq]; exact List.mem_map_of_mem _ hmem)
          rw [reviewsFor_append, hc_tl c' hmem, List.nil_append]
          simp [reviewsFor, hne]
        obtain ⟨suffix', h1, h2, h3, h4, h5⟩ :=
          ih rs₀ (created ++ [r]) (nid + 1) hndc.2 hc'
        refine ⟨r :: suffix', ?_, ?_, ?_, ?_, ?_⟩
        · rw [h1, List.append_assoc]; rfl
        · rw [h2, List.append_assoc]; rfl
        · intro r' hr'
          rcases List.mem_cons.mp hr' with hEq | hmem'
          · subst hEq
            exact ⟨rfl, c, List.mem_cons_self c tl, rfl, hb, rfl⟩
          · obtain ⟨hst, c', hc'mem, hcid, hrv, hsch⟩ := h3 r' hmem'
            exact ⟨hst, c', List.mem_cons_of_mem c hc'mem, hcid, hrv, hsch⟩
        · intro c'' hc''
          rcases List.mem_cons.mp hc'' with hEq | hmem''
          · subst hEq
            have hsuf : suffix'.filter
                (fun r' => r'.customer_id = c''.id) = [] := by
              rw [List.filter_eq_nil_iff]
              intro r' hr'
              obtain ⟨_, c', hc'mem, hcid, _, _⟩ := h3 r' hr'
              simp only [decide_eq_true_eq]
              intro hEq2
              apply hcid_not
              rw [← hEq2, hcid]
              exact List.mem_map_of_mem _ hc'mem
            rw [List.filter_cons, if_pos (by rw [hrc]; simp), hsuf,
              if_pos hb]
            rfl
          · have hne : (decide (r.customer_id = c''.id)) = false := by
              rw [hrc]
              simp only [decide_eq_false_iff_not]
              intro hEq2
              exact hcid_not
                (by rw [hEq2]; exact List.mem_map_of_mem _ hmem'')
            rw [List.filter_cons, if_neg (by rw [hne]; simp)]
            exact h4 c'' hmem''
        · rw [List.length_cons, h5, List.filter_cons,
            if_pos (by simpa using hb)]
          rfl
      · -- the customer already has a review: the loop skips it
        have hbe : ¬ (reviewsFor c.id (rs₀ ++ created)).isEmpty := by
          rw [hsplit]
          cases hcase : reviewsFor c.id rs₀ with
          | nil => exact absurd hcase hb
          | cons a tll => simp
        rw [backfillStep_skip _ _ _ _ hbe]
        obtain ⟨suffix', h1, h2, h3, h4, h5⟩ := ih rs₀ created nid hndc.2 hc_tl
        refine ⟨suffix', h1, h2, ?_, ?_, ?_⟩
        · intro r' hr'
          obtain ⟨hst, c', hc'mem, hcid, hrv, hsch⟩ := h3 r' hr'
          exact ⟨hst, c', List.mem_cons_of_mem c hc'mem, hcid, hrv, hsch⟩
        · intro c'' hc''
          rcases List.mem_cons.mp hc'' with hEq | hmem''
          · subst hEq
            have hsuf : suffix'.filter
                (fun r' => r'.customer_id = c''.id) = [] := by
              rw [List.filter_eq_nil_iff]
              intro r' hr'
              obtain ⟨_, c', hc'mem, hcid, _, _⟩ := h3 r' hr'
              simp only [decide_eq_true_eq]
              intro hEq2
              apply hcid_not
              rw [← hEq2, hcid]
              exact List.mem_map_of_mem _ hc'mem
            rw [hsuf, if_neg hb]
            rfl
          · exact h4 c'' hmem''
        · rw [h5, List.filter_cons, if_neg (by simpa using hb)]


/-! ### Claim C4: the explicit backfill run -/

/-- A store with a single APPROVED customer whose `decision_date` is null
and who has no reviews. -/
def backfillStoreEx : Store :=
  { customers := [{ id := 1, user_id := 101, status := .APPROVED
                    attrs := exampleHighRisk, decision_date := none }]
    nextUserId := 200, nextCustomerId := 2, nextReviewId := 1 }

/-- **C4 counterexample.** The claim says a customer with an absent
`decision_date` gets a review scheduled 6 months from the *current time*.
In `POST /backfill` the code runs `new Date(customer.decision_date)`, and
`new Date(null)` is the Unix epoch: the created review is scheduled
1970-07-01 — not 6 months after any contemporary run date (e.g. a run on
2026-01-15 would have to give 2026-07-15). -/
theorem backfill_null_decision_date_counterexample :
    ((backfillRoute backfillStoreEx).2.map (fun r => r.scheduled_date))
      = [⟨1970, 6, 1⟩] ∧
    (⟨1970, 6, 1⟩ : SimpleDate) ≠ addMonths 6 d2026 := by
  exact ⟨rfl, by decide⟩

/-- **C4 (amended).** One run of `POST /backfill` over a store whose
customer ids are distinct creates exactly N new DRAFT reviews, where N is
the number of APPROVED customers with zero existing reviews — one per such
customer and none for customers that already have a review — each scheduled
6 months from `new Date(customer.decision_date)`, which is that customer's
`decision_date` when present and the **Unix epoch** (not the current time)
when absent. -/
theorem backfill_route_spec (st : Store)
    (hnodup : (st.customers.map (fun c => c.id)).Nodup) :
    ((backfillRoute st).1).reviews = st.reviews ++ (backfillRoute st).2 ∧
    (∀ r ∈ (backfillRoute st).2, r.status = .DRAFT ∧
       ∃ c ∈ st.customers, c.status = .APPROVED ∧ r.customer_id = c.id ∧
         reviewsFor c.id st.reviews = [] ∧
         r.scheduled_date = addMonths 6 (jsDateOrEpoch c.decision_date)) ∧
    (∀ c ∈ st.customers, c.status = .APPROVED →
       ((backfillRoute st).2.filter (fun r => r.customer_id = c.id)).length
         = if reviewsFor c.id st.reviews = [] then 1 else 0) ∧
    (backfillRoute st).2.length =
      ((st.customers.filter (fun c => c.status = .APPROVED)).filter
        (fun c => reviewsFor c.id st.reviews = [])).length := by
  have hsub : (st.customers.filter
      (fun c => c.status = .APPROVED)).Sublist st.customers :=
    List.filter_sublist _
  have hnd : ((st.customers.filter
      (fun c => c.status = .APPROVED)).map (fun c => c.id)).Nodup :=
    hnodup.sublist (hsub.map (fun c : CustomerRow => c.id))
  have hc : ∀ c ∈ st.customers.filter (fun c => c.status = .APPROVED),
      reviewsFor c.id ([] : List Review) = [] := fun _ _ => rfl
  obtain ⟨suffix, h1, h2, h3, h4, h5⟩ :=
    backfillFold_spec (st.customers.filter (fun c => c.status = .APPROVED))
      st.reviews [] st.nextReviewId hnd hc
  rw [List.append_nil] at h1 h2
  rw [List.nil_append] at h1 h2
  have hb2 : (backfillRoute st).2 = suffix := h1
  have hb1 : ((backfillRoute st).1).reviews = st.reviews ++ suffix := h2
  refine ⟨?_, ?_, ?_, ?_⟩
  · rw [hb1, hb2]
  · intro r hr
    rw [hb2] at hr
    obtain ⟨hst, c, hcm, hcid, hrv, hsch⟩ := h3 r hr
    have hcm' := List.mem_filter.mp hcm
    exact ⟨hst, c, hcm'.1, by simpa using hcm'.2, hcid, hrv, hsch⟩
  · intro c hcm hap
    have hmem : c ∈ st.customers.filter (fun c => c.status = .APPROVED) :=
      List.mem_filter.mpr ⟨hcm, by simpa using hap⟩
    rw [hb2]
    exact h4 c hmem
  · rw [hb2]
    exact h5

/-- Witness for the amended C4: running backfill on `backfillStoreEx`
creates exactly one review. -/
theorem backfill_route_witness :
    (backfillRoute backfillStoreEx).2.length = 1 := by
  have h := backfill_route_spec backfillStoreEx (by decide)
  rw [h.2.2.2]
  rfl


/-! ### Claim C5: completing a review -/

/-- **C5.** For every complete-review request (over a store whose review ids
respect the key counter): omitting `completedDate` yields the validation
error and leaves the store untouched; a non-existent review id yields the
not-found error and leaves the store untouched; otherwise the review is
marked COMPLETED with `completed_date` (and `completed_by`) stamped, and
exactly one successor DRAFT review at `nextReviewDate` is appended when that
field is supplied, none when it is not. -/
theorem complete_route_spec (empId reviewId : ℕ) (now : SimpleDate)
    (body : CompleteBody) (st : Store)
    (hwf : ∀ r ∈ st.reviews, r.id < st.nextReviewId) :
    (body.completedDate = none →
       completeRoute empId reviewId now body st = (.badRequest, st)) ∧
    ((∀ r ∈ st.reviews, ¬ r.id = reviewId) →
       ∀ cd, body.completedDate = some cd →
       completeRoute empId reviewId now body st = (.notFound, st)) ∧
    (∀ cd, body.completedDate = some cd →
       (∃ r ∈ st.reviews, r.id = reviewId) →
       ∃ res st', completeRoute empId reviewId now body st = (.ok res, st') ∧
         (∀ r ∈ st'.reviews, r.id = reviewId →
            r.status = .COMPLETED ∧ r.completed_date = some cd ∧
            r.completed_by = some empId) ∧
         (body.nextReviewDate = none →
            st'.reviews.length = st.reviews.length) ∧
         (∀ nd, body.nextReviewDate = some nd →
            st'.reviews.length = st.reviews.length + 1 ∧
            st'.reviews.getLast? = some
              { id := st.nextReviewId, customer_id := res.customer_id
                scheduled_date := nd, status := .DRAFT
                created_at := some now })) := by
  refine ⟨?_, ?_, ?_⟩
  · intro h
    unfold completeRoute
    rw [h]
  · intro hnone cd hcd
    unfold completeRoute
    rw [hcd]
    dsimp only
    have hmap : st.reviews.map (fun r =>
        if r.id = reviewId then
          { r with completed_date := some cd
                   notes := body.notes
                   next_review_date := body.nextReviewDate
                   status := .COMPLETED
                   completed_by := some empId }
        else r) = st.reviews := by
      conv_rhs => rw [← List.map_id st.reviews]
      apply List.map_congr_left
      intro r hr
      rw [if_neg (hnone r hr)]
      rfl
    rw [hmap]
    have hfind : st.reviews.find? (fun r => r.id = reviewId) = none := by
      rw [List.find?_eq_none]
      intro r hr
      simpa using hnone r hr
    rw [hfind]
  · intro cd hcd hex
    unfold completeRoute
    rw [hcd]
    dsimp only
    set f : Review → Review := fun r =>
      if r.id = reviewId then
        { r with completed_date := some cd
                 notes := body.notes
                 next_review_date := body.nextReviewDate
                 status := .COMPLETED
                 completed_by := some empId }
      else r with hf
    have hkeep_id : ∀ r, (f r).id = r.id := by
      intro r
      by_cases h : r.id = reviewId
      · simp only [hf, if_pos h]
      · simp only [hf, if_neg h]
    have hfound : ∃ x, (st.reviews.map f).find? (fun r => r.id = reviewId)
        = some x := by
      obtain ⟨r, hr, hid⟩ := hex
      apply Option.isSome_iff_exists.mp
      rw [List.find?_isSome]
      exact ⟨f r, List.mem_map_of_mem f hr, by simp [hkeep_id r, hid]⟩
    obtain ⟨upd, hfind⟩ := hfound
    rw [hfind]
    have hprops : ∀ r ∈ st.reviews.map f, r.id = reviewId →
        r.status = .COMPLETED ∧ r.completed_date = some cd ∧
        r.completed_by = some empId := by
      intro r hr hid
      rcases List.mem_map.mp hr with ⟨r₀, _, hr₀⟩
      by_cases h0 : r₀.id = reviewId
      · rw [← hr₀]
        simp [hf, if_pos h0]
      · exfalso
        have hrr : r = r₀ := by
          rw [← hr₀]
          simp only [hf, if_neg h0]
        rw [hrr] at hid
        exact h0 hid
    cases hnd : body.nextReviewDate with
    | none =>
        refine ⟨upd, _, rfl, ?_, ?_, ?_⟩
        · intro r hr hid
          exact hprops r hr hid
        · intro _
          exact List.length_map st.reviews f
        · intro nd h
          simp at h
    | some nd =>
        refine ⟨upd, _, rfl, ?_, ?_, ?_⟩
        · intro r hr hid
          rcases List.mem_append.mp hr with hr1 | hr2
          · exact hprops r hr1 hid
          · exfalso
            rcases List.mem_singleton.mp hr2 with rfl
            obtain ⟨r₁, hr₁, hid₁⟩ := hex
            have := hwf r₁ hr₁
            rw [hid₁] at this
            simp only at hid
            omega
        · intro h
          simp at h
        · intro nd' hnd'
          injection hnd' with hEq
          subst hEq
          constructor
          · show (List.map f st.reviews ++ _).length = st.reviews.length + 1
            rw [List.length_append, List.length_map]
            rfl
          · exact List.getLast?_concat _


/-- A store holding one DRAFT review (id 1) for customer 1. -/
def completeStoreEx : Store :=
  { customers := [{ id := 1, user_id := 101, status := .APPROVED
                    attrs := exampleHighRisk }]
    reviews := [{ id := 1, customer_id := 1, scheduled_date := d2026
                  status := .DRAFT }]
    nextUserId := 200, nextCustomerId := 2, nextReviewId := 2 }

/-- Witness for C5: completing review 1 with a `nextReviewDate` yields `ok`
and a second (successor) review. -/
theorem complete_route_witness :
    ∃ res st', completeRoute 9 1 d2026
        { completedDate := some d2026, notes := none
          nextReviewDate := some ⟨2026, 6, 1⟩ } completeStoreEx
        = (.ok res, st') ∧ st'.reviews.length = 2 := by
  obtain ⟨res, st', h, _, _, hnext⟩ :=
    (complete_route_spec 9 1 d2026
      { completedDate := some d2026, notes := none
        nextReviewDate := some ⟨2026, 6, 1⟩ }
      completeStoreEx (by decide)).2.2 d2026 rfl
      ⟨{ id := 1, customer_id := 1, scheduled_date := d2026
         status := .DRAFT }, by decide, rfl⟩
  refine ⟨res, st', h, ?_⟩
  rw [(hnext _ rfl).1]
  rfl


end Onboarding

namespace Onboarding

/-! ## Risk-score persistence (routes/customers.js) -/

/-- The `risk_scores` upsert of `POST /customers/:id/calculate-risk`
(`upsert({ customer_id, ...risk }, { onConflict: ['customer_id'] })`):
replace the row with the same `customer_id` when one exists, insert
otherwise. -/
def upsertRiskScore (cid : ℕ) (r : RiskResult) (scores : List RiskRow) :
    List RiskRow :=
  if scores.any (fun row => row.customer_id = cid) then
    scores.map (fun row =>
      if row.customer_id = cid then { customer_id := cid, result := r }
      else row)
  else scores ++ [{ customer_id := cid, result := r }]

/-- `POST /customers/:id/calculate-risk`: fetch the customer (404 — `none` —
when absent), recompute the risk score from its attributes, and upsert the
`risk_scores` row keyed on `customer_id`. -/
def calculateRiskRoute (custId : ℕ) (nowMs : ℤ) (st : Store) :
    Option Store :=
  match st.customers.find? (fun c => c.id = custId) with
  | none => none
  | some customer =>
      some { st with
        risk_scores :=
          upsertRiskScore custId (calculateRiskScore nowMs customer.attrs)
            st.risk_scores }

/-- `POST /customers` (create application): insert a DRAFT customer with a
fresh id, compute its risk, and plainly insert a `risk_scores` row for the
fresh id. Returns the new store and the created customer id. -/
def createCustomerRoute (userId : ℕ) (attrs : RiskInput) (nowMs : ℤ)
    (st : Store) : Store × ℕ :=
  let cid := st.nextCustomerId
  let row : CustomerRow :=
    { id := cid, user_id := userId, status := .DRAFT, attrs := attrs }
  let risk := calculateRiskScore nowMs attrs
  ({ st with customers := st.customers ++ [row]
             risk_scores :=
               st.risk_scores ++ [{ customer_id := cid, result := risk }]
             nextCustomerId := cid + 1 }, cid)

/-- The C7 invariant: at most one `risk_scores` row per `customer_id`. -/
def atMostOneRiskRow (scores : List RiskRow) : Prop :=
  ∀ cid, (scores.filter (fun row => row.customer_id = cid)).length ≤ 1

/-- Database key freshness: every stored risk row refers to an
already-allocated customer id. -/
def riskIdsFresh (st : Store) : Prop :=
  ∀ row ∈ st.risk_scores, row.customer_id < st.nextCustomerId

theorem upsertRiskScore_atMostOne (cid : ℕ) (r : RiskResult)
    (scores : List RiskRow) (h : atMostOneRiskRow scores) :
    atMostOneRiskRow (upsertRiskScore cid r scores) := by
  intro cid0
  unfold upsertRiskScore
  by_cases hany : scores.any (fun row => row.customer_id = cid)
  · rw [if_pos hany]
    have hkey : ∀ row : RiskRow,
        ((if row.customer_id = cid then
            ({ customer_id := cid, result := r } : RiskRow)
          else row).customer_id) = row.customer_id := by
      intro row
      by_cases hrow : row.customer_id = cid
      · rw [if_pos hrow, hrow]
      · rw [if_neg hrow]
    calc (List.filter (fun row => row.customer_id = cid0)
            (scores.map (fun row =>
              if row.customer_id = cid then
                ({ customer_id := cid, result := r } : RiskRow)
              else row))).length
        = scores.countP (fun row => decide (row.customer_id = cid0)) := by
          rw [← List.countP_eq_length_filter, List.countP_map]
          apply List.countP_congr
          intro row _
          simp [hkey row]
      _ = (scores.filter (fun row => row.customer_id = cid0)).length := by
          rw [← List.countP_eq_length_filter]
      _ ≤ 1 := h cid0
  · rw [if_neg hany]
    rw [List.filter_append]
    have hnone : ∀ row ∈ scores, ¬ row.customer_id = cid := by
      intro row hrow
      by_contra hEq
      exact hany (List.any_eq_true.mpr ⟨row, hrow, by simpa using hEq⟩)
    by_cases hc : cid0 = cid
    · have hz : scores.filter (fun row => row.customer_id = cid0) = [] := by
        rw [List.filter_eq_nil_iff]
        intro row hrow
        have := hnone row hrow
        simp only [decide_eq_true_eq]
        omega
      rw [hz, List.nil_append]
      exact List.length_filter_le _ _
    · have hz : List.filter (fun row => row.customer_id = cid0)
          [({ customer_id := cid, result := r } : RiskRow)] = [] := by
        rw [List.filter_eq_nil_iff]
        intro row hrow
        rcases List.mem_singleton.mp hrow with rfl
        simp only [decide_eq_true_eq]
        show ¬ cid = cid0
        omega
      rw [hz, List.length_append]
      simpa using h cid0

/-- **C7.** Every write path into `risk_scores` preserves the invariant
"at most one row per `customer_id`": the recompute endpoint upserts keyed on
`customer_id` (overwriting, never duplicating), and application creation
inserts a row only for the freshly allocated customer id, which — by key
freshness — has no prior row. Creation also preserves freshness itself. -/
theorem risk_scores_at_most_one_per_customer (st : Store)
    (custId userId : ℕ) (attrs : RiskInput) (nowMs : ℤ)
    (h : atMostOneRiskRow st.risk_scores) :
    (∀ st', calculateRiskRoute custId nowMs st = some st' →
       atMostOneRiskRow st'.risk_scores) ∧
    (riskIdsFresh st →
       atMostOneRiskRow
         ((createCustomerRoute userId attrs nowMs st).1).risk_scores ∧
       riskIdsFresh (createCustomerRoute userId attrs nowMs st).1) := by
  constructor
  · intro st' hroute
    unfold calculateRiskRoute at hroute
    split at hroute
    · exact absurd hroute (by simp)
    · have hst := Option.some_inj.mp hroute
      rw [← hst]
      exact upsertRiskScore_atMostOne custId _ st.risk_scores h
  · intro hfresh
    constructor
    · intro cid0
      show (List.filter (fun row => row.customer_id = cid0)
          (st.risk_scores ++
            [{ customer_id := st.nextCustomerId
               result := calculateRiskScore nowMs attrs }])).length ≤ 1
      rw [List.filter_append]
      by_cases hc : cid0 = st.nextCustomerId
      · have hz : st.risk_scores.filter
            (fun row => row.customer_id = cid0) = [] := by
          rw [List.filter_eq_nil_iff]
          intro row hrow
          have := hfresh row hrow
          simp only [decide_eq_true_eq]
          omega
        rw [hz, List.nil_append]
        exact List.length_filter_le _ _
      · have hz : List.filter (fun row => row.customer_id = cid0)
            [({ customer_id := st.nextCustomerId
                result := calculateRiskScore nowMs attrs } : RiskRow)]
            = [] := by
          rw [List.filter_eq_nil_iff]
          intro row hrow
          rcases List.mem_singleton.mp hrow with rfl
          simp only [decide_eq_true_eq]
          show ¬ st.nextCustomerId = cid0
          omega
        rw [hz, List.length_append]
        simpa using h cid0
    · intro row hrow
      show row.customer_id < st.nextCustomerId + 1
      rcases List.mem_append.mp hrow with h1 | h2
      · have := hfresh row h1
        omega
      · rcases List.mem_singleton.mp h2 with rfl
        show st.nextCustomerId < st.nextCustomerId + 1
        omega

/-- Witness for C7 at a concrete store: recomputing customer 1's score and
creating an application both leave at most one row per customer. -/
theorem risk_scores_witness :
    atMostOneRiskRow
      ((createCustomerRoute 5 exampleHighRisk 0 approveStoreEx).1).risk_scores := by
  exact ((risk_scores_at_most_one_per_customer approveStoreEx 1 5
    exampleHighRisk 0 (fun cid => by simp [approveStoreEx])).2
    (fun row hrow => by simp [approveStoreEx] at hrow)).1

end Onboarding

namespace Onboarding

/-! ## Customer update with password change (routes/customers.js, PUT /:id) -/

/-- Reading a property of the JSON body, modelled as a key-value list. -/
def lookupField (k : String) (payload : List (String × String)) :
    Option String :=
  (payload.find? (fun kv => kv.1 = k)).map (fun kv => kv.2)

/-- JS truthiness of a string property (absent and `''` are falsy). -/
def truthy : Option String → Bool
  | some s => ¬ s = ""
  | none => false

/-- `delete updatePayload.password; delete updatePayload.currentPassword`. -/
def stripPasswordFields (payload : List (String × String)) :
    List (String × String) :=
  payload.filter (fun kv => ¬ (kv.1 = "password" ∨ kv.1 = "currentPassword"))

/-- A database `update` of one column: overwrite it where present, add it
otherwise. -/
def setField (k v : String) (data : List (String × String)) :
    List (String × String) :=
  if data.any (fun kv => kv.1 = k) then
    data.map (fun kv => if kv.1 = k then (k, v) else kv)
  else data ++ [(k, v)]

/-- Applying a whole update payload to a row's generic columns. -/
def applyUpdate (payload data : List (String × String)) :
    List (String × String) :=
  payload.foldl (fun d kv => setField kv.1 kv.2 d) data

/-- The external bcrypt collaborator, modelled as a deterministic tag. -/
def bcryptHash (pw : String) : String := "bcrypt$" ++ pw

/-- `bcrypt.compare(pw, hash)`. -/
def bcryptCompare (pw h : String) : Bool := h = bcryptHash pw

inductive UpdateResult where
  | notFoundCustomer   -- 404 'Customer not found'
  | forbidden          -- 403 'Forbidden'
  | notFoundUser       -- 404 'User not found'
  | wrongPassword      -- 400 'Current password is incorrect'
  | ok                 -- 200, updated row
  deriving Repr, DecidableEq

/-- The HTTP status each outcome is sent with in the source. -/
def updateStatus : UpdateResult → ℕ
  | .notFoundCustomer => 404
  | .forbidden => 403
  | .notFoundUser => 404
  | .wrongPassword => 400
  | .ok => 200

/-- The spec's error taxonomy (§7) maps an AuthorizationError to a
403-equivalent response. -/
def specAuthorizationErrorStatus : ℕ := 403

/-- The user-row update storing a freshly hashed password. -/
def setUserHash (targetId : ℕ) (newHash : String) (u : UserRow) : UserRow :=
  if u.id = targetId then { u with password_hash := newHash } else u

/-- The customer-row update applying the generic payload columns. -/
def setCustomerFields (custId : ℕ) (payload : List (String × String))
    (c : CustomerRow) : CustomerRow :=
  if c.id = custId then
    { c with fields := applyUpdate payload c.fields }
  else c

/-- `PUT /customers/:id`: fetch the customer (404 when absent); forbid a
customer updating someone else's record; when a truthy `password` and
`currentPassword` are both supplied, fetch the user row, verify the current
password against the stored hash (rejecting with the 400 `wrongPassword`
response on mismatch, store untouched), store the new hash on the user, and
delete both password fields from the payload; finally apply the remaining
payload to the customer row. -/
def updateCustomerRoute (reqUserId : ℕ) (role : String) (custId : ℕ)
    (payload : List (String × String)) (st : Store) :
    UpdateResult × Store :=
  match st.customers.find? (fun c => c.id = custId) with
  | none => (.notFoundCustomer, st)
  | some customer =>
      if role = "CUSTOMER" ∧ ¬ customer.user_id = reqUserId then
        (.forbidden, st)
      else if truthy (lookupField "password" payload)
          ∧ truthy (lookupField "currentPassword" payload) then
        match st.users.find? (fun u => u.id = customer.user_id) with
        | none => (.notFoundUser, st)
        | some user =>
            if ¬ bcryptCompare
                ((lookupField "currentPassword" payload).getD "")
                user.password_hash then
              (.wrongPassword, st)
            else
              (.ok,
               { st with
                   users := st.users.map (setUserHash user.id
                     (bcryptHash ((lookupField "password" payload).getD "")))
                   customers := st.customers.map (setCustomerFields custId
                     (stripPasswordFields payload)) })
      else
        (.ok,
         { st with customers :=
             st.customers.map (setCustomerFields custId payload) })

theorem stripPasswordFields_lookup (payload : List (String × String)) :
    lookupField "password" (stripPasswordFields payload) = none ∧
    lookupField "currentPassword" (stripPasswordFields payload) = none := by
  constructor <;>
  · unfold lookupField
    rw [Option.map_eq_none', List.find?_eq_none]
    intro kv hkv
    have := (List.mem_filter.mp hkv).2
    simp only [decide_eq_true_eq] at this ⊢
    tauto

end Onboarding

namespace Onboarding

theorem lookupField_eq_none_iff (k : String)
    (l : List (String × String)) :
    lookupField k l = none ↔ ∀ kv ∈ l, ¬ kv.1 = k := by
  unfold lookupField
  rw [Option.map_eq_none', List.find?_eq_none]
  simp

theorem setField_preserves_absent (key v k : String)
    (hk : ¬ key = k) (data : List (String × String))
    (hd : ∀ kv ∈ data, ¬ kv.1 = k) :
    ∀ kv ∈ setField key v data, ¬ kv.1 = k := by
  intro kv hkv
  unfold setField at hkv
  by_cases hany : data.any (fun kv => kv.1 = key)
  · rw [if_pos hany] at hkv
    rcases List.mem_map.mp hkv with ⟨kv₀, hkv₀, hEq⟩
    by_cases h0 : kv₀.1 = key
    · rw [← hEq, if_pos h0]
      exact hk
    · rw [← hEq, if_neg h0]
      exact hd kv₀ hkv₀
  · rw [if_neg hany] at hkv
    rcases List.mem_append.mp hkv with h1 | h2
    · exact hd kv h1
    · rcases List.mem_singleton.mp h2 with rfl
      exact hk

theorem applyUpdate_preserves_absent (k : String) :
    ∀ (payload data : List (String × String)),
      (∀ kv ∈ payload, ¬ kv.1 = k) → (∀ kv ∈ data, ¬ kv.1 = k) →
      ∀ kv ∈ applyUpdate payload data, ¬ kv.1 = k := by
  intro payload
  induction payload with
  | nil => intro data _ hd; exact hd
  | cons kv₀ tl ih =>
      intro data hp hd
      have hstep : ∀ kv ∈ setField kv₀.1 kv₀.2 data, ¬ kv.1 = k :=
        setField_preserves_absent kv₀.1 kv₀.2 k
          (hp kv₀ (List.mem_cons_self kv₀ tl)) data hd
      exact ih (setField kv₀.1 kv₀.2 data)
        (fun kv h => hp kv (List.mem_cons_of_mem kv₀ h)) hstep

/-- A one-user one-customer store where user 101 (hash of "secret") owns
customer 1. -/
def updStoreEx : Store :=
  { users := [{ id := 101, email := "a@b.c"
                password_hash := bcryptHash "secret", role := "CUSTOMER" }]
    customers := [{ id := 1, user_id := 101, status := .DRAFT
                    attrs := exampleHighRisk }]
    nextUserId := 102, nextCustomerId := 2, nextReviewId := 1 }

/-- An update payload carrying a wrong current password. -/
def updPayloadEx : List (String × String) :=
  [("password", "newpw"), ("currentPassword", "wrongpw"), ("city", "Oslo")]

/-- The same payload with the correct current password. -/
def updPayloadOk : List (String × String) :=
  [("password", "newpw"), ("currentPassword", "secret"), ("city", "Oslo")]

/-- **C8 counterexample.** On a current-password mismatch the route replies
with HTTP 400 ('Current password is incorrect'), a validation-style error;
the spec's taxonomy (§7) maps an *authorization* error to 403, so "rejects
with an authorization error on mismatch" does not hold of the code. The
store is nevertheless untouched. -/
theorem password_mismatch_is_400_not_403 :
    updateCustomerRoute 101 "CUSTOMER" 1 updPayloadEx updStoreEx
      = (.wrongPassword, updStoreEx) ∧
    updateStatus .wrongPassword = 400 ∧
    ¬ updateStatus .wrongPassword = specAuthorizationErrorStatus := by
  exact ⟨by decide, rfl, by decide⟩

/-- **C8 (amended).** When a customer-update request supplies both a (truthy)
new password and current password, the route verifies the current password
against the stored bcrypt hash before changing anything: on mismatch it
rejects with the 400 validation-style error (not the 403 of the spec's
authorization taxonomy) leaving both the user and customer rows unchanged;
on success it stores the new hash on the user row and applies only
`stripPasswordFields payload` — which binds neither `password` nor
`currentPassword` — to the customer row, so password fields never reach a
customer record that did not already contain one. -/
theorem update_password_spec (reqUserId : ℕ) (role : String) (custId : ℕ)
    (payload : List (String × String)) (st : Store)
    (customer : CustomerRow)
    (hfind : st.customers.find? (fun c => c.id = custId) = some customer)
    (hrole : ¬ (role = "CUSTOMER" ∧ ¬ customer.user_id = reqUserId))
    (hpw : truthy (lookupField "password" payload)
           ∧ truthy (lookupField "currentPassword" payload))
    (user : UserRow)
    (huser : st.users.find? (fun u => u.id = customer.user_id) = some user) :
    (¬ bcryptCompare ((lookupField "currentPassword" payload).getD "")
        user.password_hash →
      updateCustomerRoute reqUserId role custId payload st
        = (.wrongPassword, st) ∧ updateStatus .wrongPassword = 400) ∧
    (bcryptCompare ((lookupField "currentPassword" payload).getD "")
        user.password_hash →
      updateCustomerRoute reqUserId role custId payload st
        = (.ok,
           { st with
               users := st.users.map (setUserHash user.id
                 (bcryptHash ((lookupField "password" payload).getD "")))
               customers := st.customers.map (setCustomerFields custId
                 (stripPasswordFields payload)) }) ∧
      lookupField "password" (stripPasswordFields payload) = none ∧
      lookupField "currentPassword" (stripPasswordFields payload) = none ∧
      (∀ c₀ : CustomerRow, lookupField "password" c₀.fields = none →
        lookupField "password"
          ((setCustomerFields custId (stripPasswordFields payload) c₀).fields)
          = none)) := by
  have hcond : (truthy (lookupField "password" payload)
      ∧ truthy (lookupField "currentPassword" payload)) := hpw
  constructor
  · intro hmis
    constructor
    · unfold updateCustomerRoute
      rw [hfind]
      dsimp only
      rw [if_neg hrole, if_pos hcond, huser]
      dsimp only
      rw [if_pos hmis]
    · rfl
  · intro hmatch
    have hnmis : ¬ ¬ bcryptCompare
        ((lookupField "currentPassword" payload).getD "")
        user.password_hash = true := by simpa using hmatch
    refine ⟨?_, (stripPasswordFields_lookup payload).1,
      (stripPasswordFields_lookup payload).2, ?_⟩
    · unfold updateCustomerRoute
      rw [hfind]
      dsimp only
      rw [if_neg hrole, if_pos hcond, huser]
      dsimp only
      rw [if_neg hnmis]
    · intro c₀ h₀
      unfold setCustomerFields
      by_cases hcid : c₀.id = custId
      · rw [if_pos hcid]
        rw [lookupField_eq_none_iff]
        apply applyUpdate_preserves_absent
        · rw [← lookupField_eq_none_iff]
          exact (stripPasswordFields_lookup payload).1
        · rw [← lookupField_eq_none_iff]
          exact h₀
      · rw [if_neg hcid]
        exact h₀

/-- Witness for the amended C8: with the correct current password the update
succeeds and the applied payload binds no password field. -/
theorem update_password_witness :
    lookupField "password" (stripPasswordFields updPayloadOk) = none ∧
    (updateCustomerRoute 101 "CUSTOMER" 1 updPayloadOk updStoreEx).1
      = .ok := by
  have h2 := (update_password_spec 101 "CUSTOMER" 1 updPayloadOk updStoreEx
    { id := 1, user_id := 101, status := .DRAFT, attrs := exampleHighRisk }
    rfl (by decide) (by decide)
    { id := 101, email := "a@b.c"
      password_hash := bcryptHash "secret", role := "CUSTOMER" }
    rfl).2 (by decide)
  exact ⟨h2.2.1, by rw [h2.1]⟩

end Onboarding

namespace Onboarding

/-! ## Registration (routes/auth.js, POST /register) -/

/-- JS `String.prototype.toUpperCase` for the ASCII strings used here. -/
def jsToUpper (s : String) : String := String.mk (s.data.map Char.toUpper)

/-- Whitespace for `String.prototype.trim`. -/
def isJsWs (c : Char) : Bool :=
  c = ' ' ∨ c = Char.ofNat 9 ∨ c = Char.ofNat 10 ∨ c = Char.ofNat 13

/-- JS `String.prototype.trim`. -/
def jsTrim (s : String) : String :=
  String.mk (((s.data.dropWhile isJsWs).reverse.dropWhile isJsWs).reverse)

inductive RegisterResult where
  | validationError              -- 400 'Email and password are required'
  | conflict                     -- 409 'Email already exists'
  | createdEmployee (uid : ℕ)    -- 201, employee: users table only
  | createdCustomer (uid : ℕ)    -- 201, user + customer profile
  | storeError                   -- 500 after the compensating delete
  deriving Repr, DecidableEq

/-- The role normalisation of `POST /register`:
`(accountType || req.body.role || '').toString().trim()`, then EMPLOYEE iff
it upper-cases to `'EMPLOYEE'`. -/
def normalizedRole (accountType roleField : Option String) : String :=
  if jsToUpper (jsTrim (accountType.getD (roleField.getD ""))) = "EMPLOYEE"
  then "EMPLOYEE" else "CUSTOMER"

/-- `POST /register`: validate email/password; 409 when the email exists;
insert the user (fresh id, hashed password, normalised role); employees stop
there; for customers, attempt the dependent `customers` insert —
`custInsertFails` injects the store failure — and on failure delete the
just-created user row before reporting the error. `attrs` stands for the
profile columns of the request body. -/
def registerRoute (email password : String)
    (accountType roleField : Option String) (attrs : RiskInput)
    (custInsertFails : Bool) (st : Store) : RegisterResult × Store :=
  if email = "" ∨ password = "" then (.validationError, st)
  else if 0 < (st.users.filter (fun u => u.email = email)).length then
    (.conflict, st)
  else
    let role := normalizedRole accountType roleField
    let uid := st.nextUserId
    let users₁ := st.users ++
      [{ id := uid, email := email
         password_hash := bcryptHash password, role := role }]
    if role = "EMPLOYEE" then
      (.createdEmployee uid,
       { st with users := users₁, nextUserId := uid + 1 })
    else if custInsertFails then
      (.storeError,
       { st with users := users₁.filter (fun u => ¬ u.id = uid)
                 nextUserId := uid + 1 })
    else
      (.createdCustomer uid,
       { st with
           users := users₁
           customers := st.customers ++
             [{ id := st.nextCustomerId, user_id := uid, status := .DRAFT
                attrs := attrs }]
           nextUserId := uid + 1
           nextCustomerId := st.nextCustomerId + 1 })

/-- **C9.** When the user insert succeeds but the dependent customer-profile
insert fails, registration deletes the just-created user row before
reporting the failure: the resulting `users` table equals the original one
(no orphaned user) and `customers` is untouched. Hypotheses: the request is
valid, the email is new, the derived role is CUSTOMER, and stored user ids
respect the key counter. -/
theorem register_rolls_back_user (email password : String)
    (accountType roleField : Option String) (attrs : RiskInput) (st : Store)
    (hwf : ∀ u ∈ st.users, u.id < st.nextUserId)
    (hvalid : ¬ (email = "" ∨ password = ""))
    (hnew : ∀ u ∈ st.users, ¬ u.email = email)
    (hrole : normalizedRole accountType roleField = "CUSTOMER") :
    (registerRoute email password accountType roleField attrs true st).1
      = .storeError ∧
    ((registerRoute email password accountType roleField attrs
        true st).2).users = st.users ∧
    ((registerRoute email password accountType roleField attrs
        true st).2).customers = st.customers := by
  have hconf : ¬ 0 < (st.users.filter (fun u => u.email = email)).length := by
    have hz : st.users.filter (fun u => u.email = email) = [] := by
      rw [List.filter_eq_nil_iff]
      intro u hu
      simpa using hnew u hu
    rw [hz]
    simp
  have husers : ∀ role : String, (st.users ++
      [({ id := st.nextUserId, email := email
          password_hash := bcryptHash password
          role := role } : UserRow)]).filter
        (fun u => ¬ u.id = st.nextUserId) = st.users := by
    intro role
    rw [List.filter_append]
    have h1 : st.users.filter (fun u => ¬ u.id = st.nextUserId)
        = st.users := by
      rw [List.filter_eq_self]
      intro u hu
      have := hwf u hu
      simp only [decide_eq_true_eq]
      omega
    have h2 : List.filter (fun u => ¬ u.id = st.nextUserId)
        [({ id := st.nextUserId, email := email
            password_hash := bcryptHash password
            role := role } : UserRow)] = [] := by
      rw [List.filter_eq_nil_iff]
      intro u hu
      rcases List.mem_singleton.mp hu with rfl
      simp
    rw [h1, h2, List.append_nil]
  unfold registerRoute
  rw [if_neg hvalid, if_neg hconf]
  dsimp only
  rw [hrole]
  rw [if_neg (by decide : ¬ ("CUSTOMER" : String) = "EMPLOYEE"), if_pos rfl]
  exact ⟨rfl, husers "CUSTOMER", rfl⟩

/-- Witness for C9: registering a customer when the profile insert fails
leaves the original single user untouched. -/
theorem register_rollback_witness :
    ((registerRoute "new@x.io" "pw1234" none none exampleHighRisk true
        updStoreEx).2).users = updStoreEx.users := by
  exact (register_rolls_back_user "new@x.io" "pw1234" none none
    exampleHighRisk updStoreEx (by decide) (by decide) (by decide)
    (by decide)).2.1

end Onboarding

namespace Onboarding

/-! ## Dashboard statistics (routes/dashboard.js, GET /statistics) -/

/-- A `customers` row as selected by the statistics route
(`select('id,status,created_at')`; the date window is applied by the query,
so the embedded operation receives exactly the in-window rows). -/
structure DashCustomerRow where
  id : ℕ
  status : String
  deriving Repr, DecidableEq

/-- A `risk_scores` row as selected (`customer_id, score, calculated_at`). -/
structure DashRiskRow where
  customer_id : ℕ
  score : Option ℚ
  calculated_at : Option ℤ
  deriving Repr, DecidableEq

inductive DashLevel where
  | LOW | MEDIUM | HIGH | UNKNOWN
  deriving Repr, DecidableEq

/-- `computeRiskLevelFromScore`: null/undefined → UNKNOWN, ≥70 → HIGH,
≥40 → MEDIUM, else LOW. -/
def computeRiskLevelFromScore : Option ℚ → DashLevel
  | none => .UNKNOWN
  | some s => if 70 ≤ s then .HIGH else if 40 ≤ s then .MEDIUM else .LOW

/-- `Math.round` (floor of x + 1/2). -/
def jsRound (q : ℚ) : ℤ := ⌊q + 1/2⌋

/-- The replacement step of the `latestByCustomer` map: keep the first row,
replace it when the new row has a strictly later `calculated_at`, or when
it has one and the kept row has none. -/
def pickLatest (cur : Option DashRiskRow) (r : DashRiskRow) :
    Option DashRiskRow :=
  match cur with
  | none => some r
  | some e =>
      match r.calculated_at, e.calculated_at with
      | some c, some ec => if ec < c then some r else some e
      | some _, none => some r
      | _, _ => some e

/-- `latestByCustomer[cid]` after the forEach over the risk rows (rows with
a falsy `customer_id` are skipped). -/
def latestFor (cid : ℕ) (riskRows : List DashRiskRow) :
    Option DashRiskRow :=
  riskRows.foldl
    (fun acc r =>
      if ¬ r.customer_id = 0 ∧ r.customer_id = cid then pickLatest acc r
      else acc)
    none

/-- The level assigned to one in-window customer id: the latest row's score
(null when there is no row or no score) through the threshold mapping. -/
def levelFor (cid : ℕ) (riskRows : List DashRiskRow) : DashLevel :=
  computeRiskLevelFromScore ((latestFor cid riskRows).bind (fun r => r.score))

/-- `customerIds = rows.map(r => r.id).filter(Boolean)`. -/
def customerIds (rows : List DashCustomerRow) : List ℕ :=
  (rows.map (fun r => r.id)).filter (fun i => ¬ i = 0)

/-- `rows.filter(r => (r.status || '').toUpperCase() === s).length`. -/
def dashStatusCount (s : String) (rows : List DashCustomerRow) : ℕ :=
  (rows.filter (fun r => jsToUpper r.status = s)).length

/-- `totalApplications === 0 ? 0 :
Math.round((approved / totalApplications) * 10000) / 100`. -/
def dashApprovalRate (rows : List DashCustomerRow) : ℚ :=
  if rows.length = 0 then 0
  else (jsRound (((dashStatusCount "APPROVED" rows : ℚ) / (rows.length : ℚ))
    * 10000) : ℚ) / 100

/-- `denom = totalApplications === 0 ? 1 : totalApplications`. -/
def dashDenom (rows : List DashCustomerRow) : ℕ :=
  if rows.length = 0 then 1 else rows.length

/-- The per-level counter accumulated over `customerIds`. -/
def dashCount (lvl : DashLevel) (rows : List DashCustomerRow)
    (riskRows : List DashRiskRow) : ℕ :=
  ((customerIds rows).filter (fun cid => levelFor cid riskRows = lvl)).length

/-- `Math.round((counters[lvl] / denom) * 10000) / 100`. -/
def dashPercent (lvl : DashLevel) (rows : List DashCustomerRow)
    (riskRows : List DashRiskRow) : ℚ :=
  (jsRound (((dashCount lvl rows riskRows : ℚ) / (dashDenom rows : ℚ))
    * 10000) : ℚ) / 100

structure BucketStat where
  count : ℕ
  percent : ℚ
  deriving Repr, DecidableEq

structure DashStats where
  totalApplications : ℕ
  pending : ℕ
  approved : ℕ
  rejected : ℕ
  approvalRate : ℚ
  low : BucketStat
  medium : BucketStat
  high : BucketStat
  unknown : BucketStat
  deriving Repr, DecidableEq

/-- The claim-relevant portion of `GET /statistics` (status counts, approval
rate, risk distribution): the `riskDistribution` stays at its all-zero
default when `customerIds` is empty, and is otherwise computed per level
with denominator `dashDenom`. -/
def dashboardStatistics (rows : List DashCustomerRow)
    (riskRows : List DashRiskRow) : DashStats :=
  { totalApplications := rows.length
    pending := dashStatusCount "PENDING" rows
    approved := dashStatusCount "APPROVED" rows
    rejected := dashStatusCount "REJECTED" rows
    approvalRate := dashApprovalRate rows
    low := if (customerIds rows).length = 0 then ⟨0, 0⟩ else
      ⟨dashCount .LOW rows riskRows, dashPercent .LOW rows riskRows⟩
    medium := if (customerIds rows).length = 0 then ⟨0, 0⟩ else
      ⟨dashCount .MEDIUM rows riskRows, dashPercent .MEDIUM rows riskRows⟩
    high := if (customerIds rows).length = 0 then ⟨0, 0⟩ else
      ⟨dashCount .HIGH rows riskRows, dashPercent .HIGH rows riskRows⟩
    unknown := if (customerIds rows).length = 0 then ⟨0, 0⟩ else
      ⟨dashCount .UNKNOWN rows riskRows, dashPercent .UNKNOWN rows riskRows⟩ }

/-- The spec's words "approved/total rounded to 2 decimal places". -/
def specRound2 (q : ℚ) : ℚ := (jsRound (q * 100) : ℚ) / 100

end Onboarding

namespace Onboarding

theorem jsRound_close (x : ℚ) : |(jsRound x : ℚ) - x| ≤ 1/2 := by
  unfold jsRound
  rw [abs_le]
  constructor
  · have h := Int.lt_floor_add_one (x + 1/2)
    push_cast at h ⊢
    linarith
  · have h := Int.floor_le (x + 1/2)
    push_cast at h ⊢
    linarith

theorem share_div_close (c n : ℕ) :
    |(jsRound ((c : ℚ) / (n : ℚ) * 10000) : ℚ) / 100
      - ((c : ℚ) / (n : ℚ) * 10000) / 100| ≤ 1/200 := by
  set x : ℚ := (c : ℚ) / (n : ℚ) * 10000 with hx
  have h := jsRound_close x
  rw [div_sub_div_same, abs_div]
  have h100 : |(100 : ℚ)| = 100 := by norm_num
  rw [h100]
  linarith

theorem length_filter_partition (l : List ℕ) (f : ℕ → DashLevel) :
    (l.filter (fun a => f a = DashLevel.LOW)).length
    + (l.filter (fun a => f a = DashLevel.MEDIUM)).length
    + (l.filter (fun a => f a = DashLevel.HIGH)).length
    + (l.filter (fun a => f a = DashLevel.UNKNOWN)).length = l.length := by
  induction l with
  | nil => rfl
  | cons a tl ih =>
      rw [List.filter_cons, List.filter_cons, List.filter_cons,
        List.filter_cons]
      cases hfa : f a <;> simp only [hfa] <;> simp <;> omega

theorem four_rounded_shares_sum (c1 c2 c3 c4 n : ℕ) (hn : 0 < n)
    (hsum : c1 + c2 + c3 + c4 = n) :
    |((jsRound ((c1 : ℚ) / (n : ℚ) * 10000) : ℚ) / 100
      + (jsRound ((c2 : ℚ) / (n : ℚ) * 10000) : ℚ) / 100
      + (jsRound ((c3 : ℚ) / (n : ℚ) * 10000) : ℚ) / 100
      + (jsRound ((c4 : ℚ) / (n : ℚ) * 10000) : ℚ) / 100) - 100| ≤ 1/50 := by
  have hnq : (0 : ℚ) < (n : ℚ) := by exact_mod_cast hn
  have hn' : (n : ℚ) ≠ 0 := hnq.ne'
  set x1 : ℚ := (c1 : ℚ) / (n : ℚ) * 10000 with hx1
  set x2 : ℚ := (c2 : ℚ) / (n : ℚ) * 10000 with hx2
  set x3 : ℚ := (c3 : ℚ) / (n : ℚ) * 10000 with hx3
  set x4 : ℚ := (c4 : ℚ) / (n : ℚ) * 10000 with hx4
  have hcast : (c1 : ℚ) + (c2 : ℚ) + (c3 : ℚ) + (c4 : ℚ) = (n : ℚ) := by
    exact_mod_cast hsum
  have hx : x1 + x2 + x3 + x4 = 10000 := by
    rw [hx1, hx2, hx3, hx4]
    field_simp
    linear_combination 10000 * hcast
  have h1 := jsRound_close x1
  have h2 := jsRound_close x2
  have h3 := jsRound_close x3
  have h4 := jsRound_close x4
  have key : (jsRound x1 : ℚ) / 100 + (jsRound x2 : ℚ) / 100
      + (jsRound x3 : ℚ) / 100 + (jsRound x4 : ℚ) / 100 - 100
      = ((jsRound x1 : ℚ) - x1) / 100 + ((jsRound x2 : ℚ) - x2) / 100
        + ((jsRound x3 : ℚ) - x3) / 100 + ((jsRound x4 : ℚ) - x4) / 100 := by
    field_simp
    linarith [hx]
  rw [key]
  have hdiv : ∀ a : ℚ, |a| ≤ 1/2 → |a / 100| ≤ 1/200 := by
    intro a ha
    rw [abs_div, show |(100 : ℚ)| = 100 from by norm_num]
    linarith
  have t1 := abs_add (((jsRound x1 : ℚ) - x1) / 100
    + ((jsRound x2 : ℚ) - x2) / 100 + ((jsRound x3 : ℚ) - x3) / 100)
    (((jsRound x4 : ℚ) - x4) / 100)
  have t2 := abs_add (((jsRound x1 : ℚ) - x1) / 100
    + ((jsRound x2 : ℚ) - x2) / 100) (((jsRound x3 : ℚ) - x3) / 100)
  have t3 := abs_add (((jsRound x1 : ℚ) - x1) / 100)
    (((jsRound x2 : ℚ) - x2) / 100)
  have b1 := hdiv _ h1
  have b2 := hdiv _ h2
  have b3 := hdiv _ h3
  have b4 := hdiv _ h4
  linarith

/-! ### Claim C6: dashboard approval rate and risk distribution -/

/-- Two in-window customers, one approved. -/
def dashRowsEx : List DashCustomerRow := [⟨1, "APPROVED"⟩, ⟨2, "PENDING"⟩]

/-- Risk rows covering both customers of `dashRowsEx`. -/
def dashRiskRowsEx : List DashRiskRow :=
  [⟨1, some 80, none⟩, ⟨2, some 10, none⟩]

/-- **C6 counterexample.** The claim says `approvalRate` equals
`approved/total` rounded to 2 decimal places. The code returns
`Math.round((approved/total)*10000)/100` — the approval *percentage*: with
1 approval out of 2 it returns `50`, whereas `approved/total` rounded to 2
decimals is `0.5`. -/
theorem approvalRate_percent_counterexample :
    (dashboardStatistics dashRowsEx []).approvalRate = 50 ∧
    specRound2 ((dashStatusCount "APPROVED" dashRowsEx : ℚ)
      / (dashRowsEx.length : ℚ)) = 1/2 ∧
    ¬ (dashboardStatistics dashRowsEx []).approvalRate
      = specRound2 ((dashStatusCount "APPROVED" dashRowsEx : ℚ)
        / (dashRowsEx.length : ℚ)) := by
  have hc : dashStatusCount "APPROVED" dashRowsEx = 1 := by decide
  have hl : ((dashRowsEx.length : ℕ) : ℚ) = 2 := by
    have : dashRowsEx.length = 2 := by decide
    rw [this]
    norm_num
  have h1 : (dashboardStatistics dashRowsEx []).approvalRate = 50 := by
    show dashApprovalRate dashRowsEx = 50
    unfold dashApprovalRate
    rw [if_neg (by decide), hc, hl]
    norm_num [jsRound]
  have h2 : specRound2 ((dashStatusCount "APPROVED" dashRowsEx : ℚ)
      / (dashRowsEx.length : ℚ)) = 1/2 := by
    rw [hc, hl]
    unfold specRound2 jsRound
    norm_num
  refine ⟨h1, h2, ?_⟩
  rw [h1, h2]
  norm_num

/-- **C6 (amended).** The dashboard returns approvalRate = the approval
*percentage* `100·approved/total` rounded to 2 decimals (within 1/200 of the
exact percentage) and exactly 0 — not NaN or an error — when total = 0; each
risk-bucket percent is `count/denom` (denominator `total`, or 1 when
total = 0) scaled to a percentage and rounded to 2 decimals; and when every
in-window customer has a nonzero id (and in particular when each has a risk
score), the four percentages sum to 100 within rounding (±1/50). -/
theorem dashboard_statistics_spec (rows : List DashCustomerRow)
    (riskRows : List DashRiskRow) :
    (rows.length = 0 →
      (dashboardStatistics rows riskRows).approvalRate = 0) ∧
    (0 < rows.length →
      |(dashboardStatistics rows riskRows).approvalRate
        - 100 * ((dashStatusCount "APPROVED" rows : ℚ)
          / (rows.length : ℚ))| ≤ 1/200) ∧
    ((dashboardStatistics rows riskRows).low.percent
       = (jsRound (((dashboardStatistics rows riskRows).low.count : ℚ)
           / (dashDenom rows : ℚ) * 10000) : ℚ) / 100 ∧
     (dashboardStatistics rows riskRows).medium.percent
       = (jsRound (((dashboardStatistics rows riskRows).medium.count : ℚ)
           / (dashDenom rows : ℚ) * 10000) : ℚ) / 100 ∧
     (dashboardStatistics rows riskRows).high.percent
       = (jsRound (((dashboardStatistics rows riskRows).high.count : ℚ)
           / (dashDenom rows : ℚ) * 10000) : ℚ) / 100 ∧
     (dashboardStatistics rows riskRows).unknown.percent
       = (jsRound (((dashboardStatistics rows riskRows).unknown.count : ℚ)
           / (dashDenom rows : ℚ) * 10000) : ℚ) / 100) ∧
    (0 < rows.length → (∀ r ∈ rows, ¬ r.id = 0) →
      (∀ r ∈ rows, ∃ rr ∈ riskRows, rr.customer_id = r.id) →
      |(dashboardStatistics rows riskRows).low.percent
        + (dashboardStatistics rows riskRows).medium.percent
        + (dashboardStatistics rows riskRows).high.percent
        + (dashboardStatistics rows riskRows).unknown.percent - 100|
        ≤ 1/50) := by
  refine ⟨?_, ?_, ?_, ?_⟩
  · intro h
    simp [dashboardStatistics, dashApprovalRate, h]
  · intro h
    have hne : ¬ rows.length = 0 := by omega
    show |dashApprovalRate rows - _| ≤ 1/200
    unfold dashApprovalRate
    rw [if_neg hne]
    have hrw : 100 * ((dashStatusCount "APPROVED" rows : ℚ)
        / (rows.length : ℚ))
        = ((dashStatusCount "APPROVED" rows : ℚ)
            / (rows.length : ℚ) * 10000) / 100 := by ring
    rw [hrw]
    exact share_div_close (dashStatusCount "APPROVED" rows) rows.length
  · by_cases hids : (customerIds rows).length = 0
    · refine ⟨?_, ?_, ?_, ?_⟩ <;>
      · simp only [dashboardStatistics, if_pos hids]
        norm_num [jsRound]
    · refine ⟨?_, ?_, ?_, ?_⟩ <;>
      · simp only [dashboardStatistics, if_neg hids]
        rfl
  · intro h hzero _hscored
    have hids_eq : customerIds rows = rows.map (fun r => r.id) := by
      unfold customerIds
      rw [List.filter_eq_self]
      intro i hi
      rcases List.mem_map.mp hi with ⟨r, hr, rfl⟩
      simpa using hzero r hr
    have hlen : (customerIds rows).length = rows.length := by
      rw [hids_eq, List.length_map]
    have hids_ne : ¬ (customerIds rows).length = 0 := by omega
    have hden : dashDenom rows = rows.length := by
      unfold dashDenom
      rw [if_neg (by omega)]
    have hcounts := length_filter_partition (customerIds rows)
      (fun cid => levelFor cid riskRows)
    simp only [dashboardStatistics, if_neg hids_ne]
    show |dashPercent .LOW rows riskRows + dashPercent .MEDIUM rows riskRows
      + dashPercent .HIGH rows riskRows + dashPercent .UNKNOWN rows riskRows
      - 100| ≤ 1/50
    unfold dashPercent
    rw [hden]
    exact four_rounded_shares_sum
      (dashCount .LOW rows riskRows) (dashCount .MEDIUM rows riskRows)
      (dashCount .HIGH rows riskRows) (dashCount .UNKNOWN rows riskRows)
      rows.length h (by unfold dashCount; rw [← hlen]; exact hcounts)

/-- Witness for the amended C6 on `dashRowsEx`/`dashRiskRowsEx` (every
customer scored): the four percentages sum to 100 within rounding. -/
theorem dashboard_statistics_witness :
    |(dashboardStatistics dashRowsEx dashRiskRowsEx).low.percent
      + (dashboardStatistics dashRowsEx dashRiskRowsEx).medium.percent
      + (dashboardStatistics dashRowsEx dashRiskRowsEx).high.percent
      + (dashboardStatistics dashRowsEx dashRiskRowsEx).unknown.percent
      - 100| ≤ 1/50 := by
  exact (dashboard_statistics_spec dashRowsEx dashRiskRowsEx).2.2.2
    (by decide) (by decide) (by decide)

end Onboarding
